import Mathlib

/-!
# CYB-VISION: capture loop, log stream and telemetry of `src/main.cpp`

A shallow embedding of the parts of `src/main.cpp` that carry state-machine
logic, followed by theorems about them.

* Time points of `chrono::steady_clock` are integers counting nanoseconds
  since the clock's epoch; `duration_cast` to seconds or milliseconds is
  integer division truncating toward zero (`Int.tdiv`).
* The frame-processing thread is a step function on `TrackerState`.  The
  effectful calls it makes (`addKernelLog`, the swap that empties
  `kernelLogs`, `imwrite`) are recorded in program order as a list of
  `Effect`s; the control flow of `main` never reads `kernelLogs`.
* `kernelLogs` is a list, oldest entry first (`front` is the head, `push`
  appends at the end).  The results of `getrusage` and of
  `getKernelLogTimestamp` are inputs of each `addKernelLog` call.  Every
  access to the queue holds `logMutex`, so the queue evolves by a sequence of
  whole operations, those of the frame-processing thread interleaved with the
  `addKernelLog` calls of the other threads.
* The accesses to `stats` are interleaved statement by statement, with
  `statsMutex` as an explicit holder.
* The `long double` and `float` arithmetic of `systemMonitor` is followed as long
  as it is exact.
-/

namespace CybVision

/-! ## Constants (`src/main.cpp` lines 45-58 and 115-116) -/

/-- Constant `MAX_LOG_ENTRIES` (line 45). -/
def MAX_LOG_ENTRIES : Nat := 8

/-- Constant `FACE_POSITION_THRESHOLD` (line 50). -/
def FACE_POSITION_THRESHOLD : Int := 100

/-- Constant `COOLDOWN_SECONDS` (line 53). -/
def COOLDOWN_SECONDS : Int := 5

/-- Constant `DETECTION_WINDOW_SECONDS` (line 54). -/
def DETECTION_WINDOW_SECONDS : Int := 1

/-- Constant `NO_FACE_THRESHOLD` (line 57). -/
def NO_FACE_THRESHOLD : Int := 10

/-- Constant `MAX_MEMORY_USAGE` (line 115): 300MB in bytes. -/
def MAX_MEMORY_USAGE : Nat := 300 * 1024 * 1024

/-- Constant `MAX_QUEUE_SIZE` (line 116). -/
def MAX_QUEUE_SIZE : Nat := 100

/-- Local `frameSkip` of `main` (line 378). -/
def frameSkip : Int := 3

/-! ## Time -/

/-- The value of `duration_cast<chrono::seconds>(later - earlier).count()` for two
time points given in nanoseconds. -/
def secondsBetween (later earlier : Int) : Int :=
  Int.tdiv (later - earlier) 1000000000

/-- The value of `duration_cast<chrono::milliseconds>(later - earlier).count()`. -/
def millisecondsBetween (later earlier : Int) : Int :=
  Int.tdiv (later - earlier) 1000000

/-- Two's-complement wrap-around of a 32-bit `int`. -/
def wrapInt32 (n : Int) : Int :=
  (n + 2147483648) % 4294967296 - 2147483648

/-! ## The log stream (`addKernelLog`, lines 142-164) -/

/-- Record `KernelLog` (lines 34-38). -/
structure KernelLog where
  timestamp : String
  message : String
  severity : Int
deriving DecidableEq, Repr

/-- What one call of `addKernelLog` reads from its environment: the result of
its `i`-th call of `getrusage` (`none` when the call does not return 0,
`some ru_maxrss` otherwise, in kilobytes) and the text returned by
`getKernelLogTimestamp`. -/
structure LogCallEnv where
  rusage : Nat → Option Nat
  timestamp : String

/-- The expression `usage.ru_maxrss * 1024` stored in a `size_t`. -/
def currentMemoryOf (ru_maxrss : Nat) : Nat :=
  (ru_maxrss * 1024) % 2 ^ 64

/-- The `while` loop of lines 151-156.  `i` is the index of the next
`getrusage` call, `currentMemory` the value of the local of that name. -/
def evictLoop (rusage : Nat → Option Nat) :
    Nat → Nat → List KernelLog → List KernelLog
  | _, _, [] => []
  | i, currentMemory, front :: rest =>
    if MAX_MEMORY_USAGE < currentMemory then
      evictLoop rusage (i + 1)
        (match rusage i with
          | some m => currentMemoryOf m
          | none => currentMemory)
        rest
    else front :: rest

/-- The memory check of lines 146-158. -/
def memoryCheck (rusage : Nat → Option Nat) (kernelLogs : List KernelLog) :
    List KernelLog :=
  match rusage 0 with
  | some m =>
    if MAX_MEMORY_USAGE < currentMemoryOf m then
      evictLoop rusage 1 (currentMemoryOf m) kernelLogs
    else kernelLogs
  | none => kernelLogs

/-- Function `addKernelLog` (lines 142-164) as a function on the queue. -/
def addKernelLog (env : LogCallEnv) (message : String) (severity : Int)
    (kernelLogs : List KernelLog) : List KernelLog :=
  if (memoryCheck env.rusage kernelLogs).length < MAX_QUEUE_SIZE then
    memoryCheck env.rusage kernelLogs ++ [⟨env.timestamp, message, severity⟩]
  else memoryCheck env.rusage kernelLogs

/-- The value of the local `currentMemory` of `addKernelLog` after `j` passes
through the body of the eviction loop, when the first `getrusage` call
succeeded. -/
def currentMemoryAfter (rusage : Nat → Option Nat) : Nat → Nat
  | 0 =>
    match rusage 0 with
    | some m => currentMemoryOf m
    | none => 0
  | j + 1 =>
    match rusage (j + 1) with
    | some m => currentMemoryOf m
    | none => currentMemoryAfter rusage j

/-- The effectful calls of the frame-processing thread that the model records. -/
inductive Effect where
  | addKernelLog (message : String) (severity : Int)
  | clearKernelLogs
  | imwrite (ok : Bool)
deriving DecidableEq, Repr

/-- The effect of one recorded call on the queue. -/
def applyEffect (env : LogCallEnv) (kernelLogs : List KernelLog) :
    Effect → List KernelLog
  | .addKernelLog message severity => addKernelLog env message severity kernelLogs
  | .clearKernelLogs => []
  | .imwrite _ => kernelLogs

/-- The queue after a sequence of recorded calls; the `k`-th call reads the
environment `envs k`. -/
def applyEffects (envs : Nat → LogCallEnv) :
    Nat → List KernelLog → List Effect → List KernelLog
  | _, kernelLogs, [] => kernelLogs
  | k, kernelLogs, e :: es =>
    applyEffects envs (k + 1) (applyEffect (envs k) kernelLogs e) es

/-- Whether the first `getrusage` call of an `addKernelLog` call succeeds with a
reading above the ceiling (the condition of lines 147-149). -/
def firstReadingAbove (env : LogCallEnv) : Bool :=
  match env.rusage 0 with
  | some m => decide (MAX_MEMORY_USAGE < currentMemoryOf m)
  | none => false

/-- The four calls of lines 464-467 that follow the clearing of the queue. -/
def reseedEffects : List Effect :=
  [.addKernelLog "Analysis in progress" 3, .addKernelLog "Processing data" 3,
   .addKernelLog "Scan in progress" 3, .addKernelLog "Searching database" 3]

/-- An operation on the queue: a call of `addKernelLog` by any thread, the swap
with an empty queue (lines 459-463 and 556-560), or the clearing followed by
the four reseeding calls (lines 459-467). -/
inductive LogOp where
  | add (env : LogCallEnv) (message : String) (severity : Int)
  | clear
  | clearAndReseed (envs : Nat → LogCallEnv)

/-- The queue after one operation. -/
def applyLogOp (kernelLogs : List KernelLog) : LogOp → List KernelLog
  | .add env message severity => addKernelLog env message severity kernelLogs
  | .clear => []
  | .clearAndReseed envs => applyEffects envs 0 [] reseedEffects

/-- The queue after a sequence of operations. -/
def applyLogOps (kernelLogs : List KernelLog) (ops : List LogOp) : List KernelLog :=
  ops.foldl applyLogOp kernelLogs

/-- A call of `addKernelLog` by another thread (`generateRandomLogs`, lines
166-194), with what it reads from its environment. -/
structure OtherCall where
  env : LogCallEnv
  message : String
  severity : Int

/-- The queue operations of a sequence of calls of other threads. -/
def otherOps (calls : List OtherCall) : List LogOp :=
  calls.map (fun c => .add c.env c.message c.severity)

/-- The queue operation of one recorded call of the frame-processing thread;
each holds `logMutex` from its start to its end. -/
def effectOps (env : LogCallEnv) : Effect → List LogOp
  | .addKernelLog message severity => [.add env message severity]
  | .clearKernelLogs => [.clear]
  | .imwrite _ => []

/-- The operations on the queue while the frame-processing thread makes the
recorded calls, up to the last of them: `logMutex` is free between two of its
calls, and the other threads make the calls `others k` before its `k`-th
call. -/
def interleavedOps (envs : Nat → LogCallEnv) (others : Nat → List OtherCall) :
    Nat → List Effect → List LogOp
  | _, [] => []
  | k, e :: es =>
    otherOps (others k) ++ effectOps (envs k) e ++ interleavedOps envs others (k + 1) es

/-! ## The tracker state and the frame step (`main`, lines 380-490) -/

/-- Class `cv::Rect`. -/
structure Rect where
  x : Int
  y : Int
  width : Int
  height : Int
deriving DecidableEq, Repr

/-- The `x` coordinate of the centre used by `calculateRectDistance`
(`rect.x + rect.width/2`, integer division). -/
def centerX (r : Rect) : Int := r.x + Int.tdiv r.width 2

/-- The `y` coordinate of the centre used by `calculateRectDistance`. -/
def centerY (r : Rect) : Int := r.y + Int.tdiv r.height 2

/-- The square of `calculateRectDistance` (lines 118-122): the argument of
its `sqrt`. -/
def calculateRectDistanceSq (rect1 rect2 : Rect) : Int :=
  (centerX rect1 - centerX rect2) ^ 2 + (centerY rect1 - centerY rect2) ^ 2

/-- The test `distance > FACE_POSITION_THRESHOLD` of line 431.  The source
compares the square root, a `double`; for integer centres whose squared
distance is below `2 ^ 53` the comparison is the same as this one on the
squares. -/
def exceedsPositionThreshold (rect1 rect2 : Rect) : Bool :=
  decide (FACE_POSITION_THRESHOLD ^ 2 < calculateRectDistanceSq rect1 rect2)

/-- The statics of lines 48-60 and the locals `frameCount`, `lastFpsTime` of
`main`. -/
structure TrackerState where
  faceDetected : Bool
  lastFaceRect : Rect
  lastCaptureTimePoint : Int
  faceDetectionStartTime : Int
  isInCooldown : Bool
  noFaceCounter : Int
  pictureTaken : Bool
  lastFaceSeenTime : Int
  isNewPerson : Bool
  frameCount : Int
  lastFpsTime : Int
deriving DecidableEq, Repr

/-- The state when the loop of `main` is entered; `lastFpsTime` is the clock
value read at line 377.  Default-constructed time points are the epoch. -/
def initialState (lastFpsTime : Int) : TrackerState where
  faceDetected := false
  lastFaceRect := ⟨0, 0, 0, 0⟩
  lastCaptureTimePoint := 0
  faceDetectionStartTime := 0
  isInCooldown := false
  noFaceCounter := 0
  pictureTaken := false
  lastFaceSeenTime := 0
  isNewPerson := true
  frameCount := 0
  lastFpsTime := lastFpsTime

/-- What one iteration of the loop reads: the clock at line 390, the clock at
line 406, the result of `detectMultiScale` (used only on a detection pass)
and the result `imwrite` would return while the `k`-th face is processed. -/
structure Frame where
  currentTime : Int
  currentTimePoint : Int
  faces : List Rect
  imwrite : Nat → Bool

/-- Lines 389-400: the frame counter and its reset once per second. -/
def fpsStep (s : TrackerState) (currentTime : Int) : TrackerState :=
  let s1 := { s with frameCount := wrapInt32 (s.frameCount + 1) }
  if 1000 ≤ millisecondsBetween currentTime s1.lastFpsTime then
    { s1 with frameCount := 0, lastFpsTime := currentTime }
  else s1

/-- Lines 407-416: expiry of the cooldown. -/
def cooldownStep (s : TrackerState) (currentTimePoint : Int) :
    TrackerState × List Effect :=
  if s.isInCooldown then
    if COOLDOWN_SECONDS ≤ secondsBetween currentTimePoint s.lastCaptureTimePoint then
      if s.pictureTaken then
        ({ s with isInCooldown := false, pictureTaken := false },
          [.addKernelLog "Analysis complete" 0])
      else ({ s with isInCooldown := false }, [])
    else (s, [])
  else (s, [])

/-- Lines 429-436: the comparison with `lastFaceRect`. -/
def classifyStep (s : TrackerState) (face : Rect) : TrackerState × List Effect :=
  if s.faceDetected then
    if exceedsPositionThreshold face s.lastFaceRect then
      ({ s with isNewPerson := true }, [.addKernelLog "New subject detected" 2])
    else ({ s with isNewPerson := false }, [])
  else (s, [])

/-- Lines 438-445: onset of a presence episode. -/
def onsetStep (s : TrackerState) (currentTimePoint : Int) (face : Rect) :
    TrackerState × List Effect :=
  if s.faceDetected then (s, [])
  else
    ({ s with
        faceDetectionStartTime := currentTimePoint
        faceDetected := true
        lastFaceRect := face
        noFaceCounter := 0
        lastFaceSeenTime := currentTimePoint },
      [.addKernelLog "Human subject detected in frame" 0])

/-- Lines 449-473: the body of the capture branch; `ok` is the result of
`imwrite`. -/
def captureStep (s : TrackerState) (currentTimePoint : Int) (ok : Bool) :
    TrackerState × List Effect :=
  if ok then
    ({ s with
        pictureTaken := true
        lastCaptureTimePoint := currentTimePoint
        isInCooldown := true },
      [.imwrite true, .addKernelLog "Image captured" 3, .clearKernelLogs] ++ reseedEffects)
  else
    ({ s with lastCaptureTimePoint := currentTimePoint, isInCooldown := true },
      [.imwrite false, .addKernelLog "Failed to capture image" 3])

/-- Lines 447-474: the capture gate. -/
def captureGate (s : TrackerState) (currentTimePoint : Int) (ok : Bool) :
    TrackerState × List Effect :=
  if s.isInCooldown = false ∧
      secondsBetween currentTimePoint s.faceDetectionStartTime ≤ DETECTION_WINDOW_SECONDS then
    captureStep s currentTimePoint ok
  else (s, [])

/-- Lines 425-475: the body of the loop over `faces` for one face. -/
def processFace (s : TrackerState) (currentTimePoint : Int) (face : Rect) (ok : Bool) :
    TrackerState × List Effect :=
  let r1 := classifyStep s face
  let r2 := onsetStep r1.1 currentTimePoint face
  let r3 := captureGate r2.1 currentTimePoint ok
  (r3.1, r1.2 ++ r2.2 ++ r3.2)

/-- Lines 425-475: the loop over `faces`; `k` is the index of the next face. -/
def faceLoop (currentTimePoint : Int) (imwriteOk : Nat → Bool) :
    Nat → TrackerState → List Rect → TrackerState × List Effect
  | _, s, [] => (s, [])
  | k, s, face :: rest =>
    let r := processFace s currentTimePoint face (imwriteOk k)
    let r2 := faceLoop currentTimePoint imwriteOk (k + 1) r.1 rest
    (r2.1, r.2 ++ r2.2)

/-- Lines 477-489: the loss debounce at the end of a detection pass. -/
def lossStep (s : TrackerState) (currentTimePoint : Int) (faces : List Rect) :
    TrackerState × List Effect :=
  if faces.isEmpty then
    if NO_FACE_THRESHOLD ≤ wrapInt32 (s.noFaceCounter + 1) ∨
        1 ≤ secondsBetween currentTimePoint s.lastFaceSeenTime then
      ({ s with faceDetected := false, noFaceCounter := 0 },
        if s.faceDetected then [.addKernelLog "Subject lost from view" 1] else [])
    else ({ s with noFaceCounter := wrapInt32 (s.noFaceCounter + 1) }, [])
  else ({ s with lastFaceSeenTime := currentTimePoint }, [])

/-- Lines 418-490: a detection pass. -/
def detectionPass (s : TrackerState) (f : Frame) : TrackerState × List Effect :=
  let r := faceLoop f.currentTimePoint f.imwrite 0 s f.faces
  let r2 := lossStep r.1 f.currentTimePoint f.faces
  (r2.1, r.2 ++ r2.2)

/-- Whether the iteration runs the detector (line 418). -/
def isDetectionPass (s : TrackerState) : Bool :=
  decide (Int.tmod s.frameCount frameSkip = 0)

/-- One iteration of the loop of `main` (lines 380-490). -/
def processFrame (s : TrackerState) (f : Frame) : TrackerState × List Effect :=
  let r := cooldownStep (fpsStep s f.currentTime) f.currentTimePoint
  if isDetectionPass r.1 then
    let r2 := detectionPass r.1 f
    (r2.1, r.2 ++ r2.2)
  else r

/-- The loop of `main` over a finite sequence of frames. -/
def runFrames : TrackerState → List Frame → TrackerState × List Effect
  | s, [] => (s, [])
  | s, f :: fs =>
    let r := processFrame s f
    let r2 := runFrames r.1 fs
    (r2.1, r.2 ++ r2.2)

/-- The frames carry non-decreasing `currentTimePoint` values, none before `t`. -/
def TimesFrom (t : Int) : List Frame → Prop
  | [] => True
  | f :: fs => t ≤ f.currentTimePoint ∧ TimesFrom f.currentTimePoint fs

/-- The frames carry non-decreasing `currentTimePoint` values. -/
def NonDecreasing : List Frame → Prop
  | [] => True
  | f :: fs => TimesFrom f.currentTimePoint fs

/-- Whether a recorded call is a call of `imwrite`. -/
def Effect.isImwrite : Effect → Bool
  | .imwrite _ => true
  | _ => false

/-- The number of `imwrite` calls in a trace. -/
def imwriteAttempts (es : List Effect) : Nat := es.countP Effect.isImwrite

/-- The flag `faceDetected` is set after every frame of the sequence but possibly
the last one: run from `s`, the frames lie within one presence episode, from its
onset up to and including the frame that ends it. -/
def WithinEpisode : TrackerState → List Frame → Prop
  | _, [] => True
  | _, [_] => True
  | s, f :: g :: fs =>
    (processFrame s f).1.faceDetected = true ∧ WithinEpisode (processFrame s f).1 (g :: fs)

/-- No capture can follow in the running episode: the cooldown of a capture made
in it is active, or five seconds have passed since its onset. -/
def Blocked (s : TrackerState) (t : Int) : Prop :=
  s.faceDetected = true ∧
    ((s.isInCooldown = true ∧ s.faceDetectionStartTime ≤ s.lastCaptureTimePoint) ∨
      s.faceDetectionStartTime + 5000000000 ≤ t)

/-- The onset of a running episode is not in the future. -/
def OnsetPast (s : TrackerState) (t : Int) : Prop :=
  s.faceDetected = true → s.faceDetectionStartTime ≤ t

/-- The call `addKernelLog("Analysis complete", 0)` of line 412. -/
def analysisComplete : Effect := .addKernelLog "Analysis complete" 0

/-- The number of "Analysis complete" events in a trace. -/
def completions (es : List Effect) : Nat := es.count analysisComplete

/-- The part of a trace that precedes its first call of `imwrite`. -/
def beforeNextCapture (es : List Effect) : List Effect :=
  es.takeWhile (fun e => !e.isImwrite)

/-- Lines 389-416 of one iteration: the frame counter and the cooldown expiry. -/
def frameHead (s : TrackerState) (f : Frame) : TrackerState × List Effect :=
  cooldownStep (fpsStep s f.currentTime) f.currentTimePoint

/-- The cooldown started at `c` is active, and `pictureTaken` is `p`. -/
def Held (s : TrackerState) (c : Int) (p : Bool) : Prop :=
  s.isInCooldown = true ∧ s.lastCaptureTimePoint = c ∧ s.pictureTaken = p

/-- The flag `pictureTaken` is set only during a cooldown. -/
def PictureInCooldown (s : TrackerState) : Prop :=
  s.pictureTaken = true → s.isInCooldown = true

/-! ## Rendering of the log (`drawKernelLogs`, lines 282-334) -/

/-- One call of `putText`: the text, the position and the colour. -/
structure PutText where
  text : String
  x : Int
  y : Int
  color : Int × Int × Int
deriving DecidableEq, Repr

/-- The two `switch` statements of lines 313-327; a `Scalar` that no case
assigns keeps its default value. -/
def severityColor (pictureTaken : Bool) (severity : Int) : Int × Int × Int :=
  if pictureTaken then
    if severity = 0 then (100, 100, 200)
    else if severity = 1 then (50, 120, 220)
    else if severity = 2 then (30, 70, 255)
    else if severity = 3 then (30, 30, 255)
    else (0, 0, 0)
  else
    if severity = 0 then (50, 230, 50)
    else if severity = 1 then (80, 220, 200)
    else if severity = 2 then (50, 200, 255)
    else if severity = 3 then (50, 50, 255)
    else (0, 0, 0)

/-- The loop of lines 308-333 over the copy `logs`; `i` is the row counter. -/
def drawLogLoop (pictureTaken : Bool) (startX startY : Int) :
    Nat → List KernelLog → List PutText
  | _, [] => []
  | i, log :: logs =>
    ⟨"[" ++ log.timestamp ++ "] " ++ log.message, startX + 2, startY + 40 + i * 18,
      severityColor pictureTaken log.severity⟩ ::
      drawLogLoop pictureTaken startX startY (i + 1) logs

/-- What `drawKernelLogs` does: the header it draws, the entries it draws and
the queue `kernelLogs` when it returns. -/
structure Rendering where
  header : PutText
  rows : List PutText
  kernelLogs : List KernelLog
deriving DecidableEq, Repr

/-- Function `drawKernelLogs` (lines 282-334) on a frame of `cols` by `rows`
pixels. -/
def drawKernelLogs (cols rows : Int) (pictureTaken : Bool) (kernelLogs : List KernelLog) :
    Rendering :=
  let logHeight : Int := MAX_LOG_ENTRIES * 18 + 20
  let logWidth : Int := 220
  let startX := cols - logWidth + 5
  let startY := rows - logHeight - 10
  { header := ⟨"[ LOG ]", startX + 2, startY + 15,
      if pictureTaken then (50, 50, 255) else (50, 230, 50)⟩
    rows := drawLogLoop pictureTaken startX startY 0 kernelLogs
    kernelLogs := kernelLogs }

/-- The row of a rendered entry: the `i` of `startY + 40 + (i * 18)`. -/
def rowOf (rows : Int) (p : PutText) : Int :=
  (p.y - (rows - ((MAX_LOG_ENTRIES : Int) * 18 + 20) - 10) - 40) / 18

/-! ## CPU usage (`systemMonitor`, lines 205-211)

The source computes the usage in `long double` and stores it in a `float`.
The model follows a floating-point value as long as every operation on the
way is exact: a correctly rounded operation returns its exact result when
that result is a number of the format.  Where an operation is rounded, the
model does not say which number results. -/

/-- Decision procedure for `TimesFrom`. -/
def decTimesFrom : (t : Int) → (fs : List Frame) → Decidable (TimesFrom t fs)
  | _, [] => isTrue trivial
  | t, f :: fs =>
    match decTimesFrom f.currentTimePoint fs with
    | isTrue h => if h0 : t ≤ f.currentTimePoint then isTrue ⟨h0, h⟩ else isFalse (fun c => h0 c.1)
    | isFalse h => isFalse (fun c => h c.2)

instance (t : Int) (fs : List Frame) : Decidable (TimesFrom t fs) := decTimesFrom t fs

instance (fs : List Frame) : Decidable (NonDecreasing fs) :=
  match fs with
  | [] => isTrue trivial
  | f :: fs => decTimesFrom f.currentTimePoint fs

/-- Decision procedure for `WithinEpisode`. -/
def decWithinEpisode : (s : TrackerState) → (fs : List Frame) → Decidable (WithinEpisode s fs)
  | _, [] => isTrue trivial
  | _, [_] => isTrue trivial
  | s, f :: g :: fs =>
    match decWithinEpisode (processFrame s f).1 (g :: fs) with
    | isTrue h =>
      if h0 : (processFrame s f).1.faceDetected = true then isTrue ⟨h0, h⟩
      else isFalse (fun c => h0 c.1)
    | isFalse h => isFalse (fun c => h c.2)

instance (s : TrackerState) (fs : List Frame) : Decidable (WithinEpisode s fs) :=
  decWithinEpisode s fs

/-! ## Concrete runs

Frames arrive every 42 ms (the loop paces itself to about 24 frames per
second); with `lastFpsTime = 0` the detector then runs on every third
frame, also across the reset of the frame counter. -/

/-- A face box with centre (125, 125). -/
def faceA : Rect := ⟨100, 100, 50, 50⟩

/-- A face box with centre (275, 125), 150 px from the centre of `faceA`. -/
def faceB : Rect := ⟨250, 100, 50, 50⟩

/-- A frame read `ms` milliseconds after the epoch of the clock, on which
`imwrite` would succeed. -/
def frameAt (ms : Int) (faces : List Rect) : Frame :=
  ⟨ms * 1000000, ms * 1000000, faces, fun _ => true⟩

/-- The `n` first frames of a run at one frame per 42 ms in which the detector
reports `faces j` on its `j`-th pass (frame `3 * j`). -/
def pacedRun (faces : Nat → List Rect) (n : Nat) : List Frame :=
  (List.range n).map (fun (i : Nat) => frameAt (42 * (Int.ofNat i + 1)) (faces ((i + 1) / 3)))

/-- A subject whose detection flickers: seen on the odd passes, missed on the
even ones. -/
def flickerFaces (j : Nat) : List Rect := if j % 2 = 1 then [faceA] else []

/-- A subject seen at `faceA`, then at `faceB`, then at `faceA` again. -/
def movingFaces (j : Nat) : List Rect := if j = 2 then [faceB] else [faceA]

/-- A run with slow frames: a subject is captured at 1.0 s and lost at 2.0 s, a
subject enters at 4.6 s during the cooldown and is still seen at 6.1 s. -/
def lateCaptureRun : List Frame :=
  [frameAt 1000 [faceA], frameAt 2000 [], frameAt 4600 [faceA]]

/-- The frame at 6.1 s that follows `lateCaptureRun`. -/
def lateCaptureFrame : Frame := frameAt 6100 [faceA]

/-- An environment in which `getrusage` always reports `kb` kilobytes. -/
def constantEnv (kb : Nat) (stamp : String) : LogCallEnv := ⟨fun _ => some kb, stamp⟩

/-- A queue of `n` entries numbered in arrival order. -/
def numberedLogs (n : Nat) : List KernelLog :=
  (List.range n).map (fun i => ⟨"12:00:00.000", "entry " ++ toString i, 0⟩)

/-! ## The shared statistics under `statsMutex` (lines 244-249, 260-263, 394-397, 497-523)

The three threads that touch `stats` are interleaved statement by statement.
A `lock_guard` on `statsMutex` is a step that is taken only while no thread
holds the mutex (a thread that finds it held does not move) and a release
step at the end of its scope.  What a thread computes outside the mutex is
an input of its step that takes the mutex. -/

/-- Record `SystemStats` (lines 23-31). -/
structure SystemStats where
  cpuUsage : ℚ
  ramUsage : ℚ
  storageUsage : ℚ
  fps : ℚ
  netStatus : String
  batteryStatus : String
  dateTime : String
deriving DecidableEq

/-- The default member values of `SystemStats` (lines 24-30). -/
def initialStats : SystemStats := ⟨0, 0, 0, 0, "Disconnected", "Unknown", ""⟩

/-- What one refresh cycle of `systemMonitor` writes at lines 245-249: its locals
`cpuUsage`, `ramUsage`, `storageUsage`, `batteryStatus` and the result of
`getCurrentDateTime`. -/
structure Metrics where
  cpuUsage : ℚ
  ramUsage : ℚ
  storageUsage : ℚ
  batteryStatus : String
  dateTime : String
deriving DecidableEq

/-- The five fields of the initial `stats`. -/
def initialMetrics : Metrics := ⟨0, 0, 0, "Unknown", ""⟩

/-- What the frame-processing thread reads from `stats` at lines 500-521. -/
structure Overlay where
  cpuUsage : ℚ
  ramUsage : ℚ
  storageUsage : ℚ
  fps : ℚ
  netStatus : String
  dateTime : String
deriving DecidableEq

/-- The threads that take `statsMutex`: `systemMonitor`, the loop of `main` and
`pingNetwork`. -/
inductive ThreadId where
  | monitor
  | frame
  | network
deriving DecidableEq

/-- Where `systemMonitor` stands: outside the critical section of lines 244-250,
or inside it before the named assignment, or at the end of the scope. -/
inductive MonitorPc where
  | outside
  | atCpuUsage
  | atRamUsage
  | atStorageUsage
  | atBatteryStatus
  | atDateTime
  | atRelease
deriving DecidableEq

/-- Where the loop of `main` stands: outside its critical sections, in the one
of lines 394-397 that writes `fps`, or in the one of lines 497-523 before the
named read. -/
inductive FramePc where
  | outside
  | atFpsWrite
  | atFpsRelease
  | atReadCpuUsage
  | atReadRamUsage
  | atReadStorageUsage
  | atReadFps
  | atReadNetStatus
  | atReadDateTime
  | atReadRelease
deriving DecidableEq

/-- Where `pingNetwork` stands with respect to the critical section of lines
260-263. -/
inductive NetworkPc where
  | outside
  | atWrite
  | atRelease
deriving DecidableEq

/-- The shared `stats`, the holder of `statsMutex`, the position and the locals
of each thread, and the overlays the frame-processing thread has completed. -/
structure SharedConfig where
  stats : SystemStats
  holder : Option ThreadId
  monitorPc : MonitorPc
  monitorLocal : Metrics
  framePc : FramePc
  frameFps : ℚ
  frameLocal : Overlay
  networkPc : NetworkPc
  networkLocal : String
  reads : List Overlay

/-- The configuration when the threads are started (lines 364-367). -/
def initialConfig : SharedConfig where
  stats := initialStats
  holder := none
  monitorPc := .outside
  monitorLocal := initialMetrics
  framePc := .outside
  frameFps := 0
  frameLocal := ⟨0, 0, 0, 0, "", ""⟩
  networkPc := .outside
  networkLocal := ""
  reads := []

/-- One step of `systemMonitor`; `m` holds what the cycle is about to publish
when the step takes the mutex (line 244). -/
def monitorStep (c : SharedConfig) (m : Metrics) : SharedConfig :=
  match c.monitorPc with
  | .outside =>
    if c.holder = none then
      { c with holder := some .monitor, monitorPc := .atCpuUsage, monitorLocal := m }
    else c
  | .atCpuUsage =>
    { c with stats := { c.stats with cpuUsage := c.monitorLocal.cpuUsage },
             monitorPc := .atRamUsage }
  | .atRamUsage =>
    { c with stats := { c.stats with ramUsage := c.monitorLocal.ramUsage },
             monitorPc := .atStorageUsage }
  | .atStorageUsage =>
    { c with stats := { c.stats with storageUsage := c.monitorLocal.storageUsage },
             monitorPc := .atBatteryStatus }
  | .atBatteryStatus =>
    { c with stats := { c.stats with batteryStatus := c.monitorLocal.batteryStatus },
             monitorPc := .atDateTime }
  | .atDateTime =>
    { c with stats := { c.stats with dateTime := c.monitorLocal.dateTime },
             monitorPc := .atRelease }
  | .atRelease => { c with holder := none, monitorPc := .outside }

/-- One step of the loop of `main`; when the step takes the mutex, `fpsSection`
tells which critical section is entered and `fps` is the value line 393
computed. -/
def frameStep (c : SharedConfig) (fpsSection : Bool) (fps : ℚ) : SharedConfig :=
  match c.framePc with
  | .outside =>
    if c.holder = none then
      { c with holder := some .frame
               framePc := if fpsSection then .atFpsWrite else .atReadCpuUsage
               frameFps := fps }
    else c
  | .atFpsWrite =>
    { c with stats := { c.stats with fps := c.frameFps }, framePc := .atFpsRelease }
  | .atFpsRelease => { c with holder := none, framePc := .outside }
  | .atReadCpuUsage =>
    { c with frameLocal := { c.frameLocal with cpuUsage := c.stats.cpuUsage },
             framePc := .atReadRamUsage }
  | .atReadRamUsage =>
    { c with frameLocal := { c.frameLocal with ramUsage := c.stats.ramUsage },
             framePc := .atReadStorageUsage }
  | .atReadStorageUsage =>
    { c with frameLocal := { c.frameLocal with storageUsage := c.stats.storageUsage },
             framePc := .atReadFps }
  | .atReadFps =>
    { c with frameLocal := { c.frameLocal with fps := c.stats.fps },
             framePc := .atReadNetStatus }
  | .atReadNetStatus =>
    { c with frameLocal := { c.frameLocal with netStatus := c.stats.netStatus },
             framePc := .atReadDateTime }
  | .atReadDateTime =>
    { c with frameLocal := { c.frameLocal with dateTime := c.stats.dateTime },
             framePc := .atReadRelease }
  | .atReadRelease =>
    { c with holder := none, framePc := .outside, reads := c.reads ++ [c.frameLocal] }

/-- One step of `pingNetwork`; `status` is the text chosen from the result of
the ping when the step takes the mutex (lines 259-262). -/
def networkStep (c : SharedConfig) (status : String) : SharedConfig :=
  match c.networkPc with
  | .outside =>
    if c.holder = none then
      { c with holder := some .network, networkPc := .atWrite, networkLocal := status }
    else c
  | .atWrite =>
    { c with stats := { c.stats with netStatus := c.networkLocal }, networkPc := .atRelease }
  | .atRelease => { c with holder := none, networkPc := .outside }

/-- The choice of the scheduler: which thread moves, with the inputs of the
thread. -/
inductive SchedulerChoice where
  | monitor (m : Metrics)
  | frame (fpsSection : Bool) (fps : ℚ)
  | network (status : String)
deriving DecidableEq

/-- One step of the interleaving. -/
def sharedStep (c : SharedConfig) : SchedulerChoice → SharedConfig
  | .monitor m => monitorStep c m
  | .frame fpsSection fps => frameStep c fpsSection fps
  | .network status => networkStep c status

/-- The configuration after a schedule, from the start of the threads. -/
def runSchedule (schedule : List SchedulerChoice) : SharedConfig :=
  schedule.foldl sharedStep initialConfig

/-- The values with which `systemMonitor` takes the mutex along a schedule run
from `c`: what its refresh cycles publish, in order. -/
def publishedFrom (c : SharedConfig) : List SchedulerChoice → List Metrics
  | [] => []
  | .monitor m :: rest =>
    if c.monitorPc = .outside ∧ c.holder = none then
      m :: publishedFrom (sharedStep c (.monitor m)) rest
    else publishedFrom (sharedStep c (.monitor m)) rest
  | a :: rest => publishedFrom (sharedStep c a) rest

/-- The values `m` are the five fields of the initial `stats` or what one refresh
cycle of the schedule publishes. -/
def OneCycle (schedule : List SchedulerChoice) (m : Metrics) : Prop :=
  m = initialMetrics ∨ m ∈ publishedFrom initialConfig schedule

/-- The number of the assignments of lines 245-249 that `systemMonitor` has made
in its current critical section. -/
def MonitorPc.written : MonitorPc → Nat
  | .outside => 0
  | .atCpuUsage => 0
  | .atRamUsage => 1
  | .atStorageUsage => 2
  | .atBatteryStatus => 3
  | .atDateTime => 4
  | .atRelease => 5

/-- The number of the reads of lines 500-521 that the loop of `main` has made in
its current critical section. -/
def FramePc.readsDone : FramePc → Nat
  | .outside => 0
  | .atFpsWrite => 0
  | .atFpsRelease => 0
  | .atReadCpuUsage => 0
  | .atReadRamUsage => 1
  | .atReadStorageUsage => 2
  | .atReadFps => 3
  | .atReadNetStatus => 4
  | .atReadDateTime => 5
  | .atReadRelease => 6

/-- The invariant of the interleaving: the holder of the mutex is the thread
that stands inside a critical section; the five fields of `stats` are those of
one cycle, but for the fields the running cycle has already overwritten; what
the frame-processing thread has read so far is what `stats` holds; every
completed overlay shows the fields of one cycle.  `P` holds of the values of
the cycles so far. -/
def SharedInv (P : Metrics → Prop) (c : SharedConfig) : Prop :=
  (c.holder = some .monitor ↔ c.monitorPc ≠ .outside) ∧
  (c.holder = some .frame ↔ c.framePc ≠ .outside) ∧
  (c.holder = some .network ↔ c.networkPc ≠ .outside) ∧
  (c.monitorPc ≠ .outside → P c.monitorLocal) ∧
  (∃ old, P old ∧
    c.stats.cpuUsage =
      (if 1 ≤ c.monitorPc.written then c.monitorLocal.cpuUsage else old.cpuUsage) ∧
    c.stats.ramUsage =
      (if 2 ≤ c.monitorPc.written then c.monitorLocal.ramUsage else old.ramUsage) ∧
    c.stats.storageUsage =
      (if 3 ≤ c.monitorPc.written then c.monitorLocal.storageUsage else old.storageUsage) ∧
    c.stats.batteryStatus =
      (if 4 ≤ c.monitorPc.written then c.monitorLocal.batteryStatus else old.batteryStatus) ∧
    c.stats.dateTime =
      (if 5 ≤ c.monitorPc.written then c.monitorLocal.dateTime else old.dateTime)) ∧
  (1 ≤ c.framePc.readsDone → c.frameLocal.cpuUsage = c.stats.cpuUsage) ∧
  (2 ≤ c.framePc.readsDone → c.frameLocal.ramUsage = c.stats.ramUsage) ∧
  (3 ≤ c.framePc.readsDone → c.frameLocal.storageUsage = c.stats.storageUsage) ∧
  (6 ≤ c.framePc.readsDone → c.frameLocal.dateTime = c.stats.dateTime) ∧
  (∀ r ∈ c.reads, ∃ m, P m ∧ r.cpuUsage = m.cpuUsage ∧
    r.ramUsage = m.ramUsage ∧ r.storageUsage = m.storageUsage ∧ r.dateTime = m.dateTime)

/-- A schedule in which `systemMonitor` publishes a cycle, the loop of `main`
starts to read, `systemMonitor` tries to publish a second cycle during the
read and publishes it after the read, and the loop of `main` reads again. -/
def contendedSchedule : List SchedulerChoice :=
  List.replicate 7 (.monitor ⟨50, 40, 30, "Battery: 80%", "2024-01-01 12:00:00"⟩) ++
  List.replicate 3 (.frame false 24) ++
  List.replicate 2 (.monitor ⟨75, 41, 30, "Battery: 79%", "2024-01-01 12:00:01"⟩) ++
  List.replicate 5 (.frame false 24) ++
  List.replicate 7 (.monitor ⟨75, 41, 30, "Battery: 79%", "2024-01-01 12:00:01"⟩) ++
  List.replicate 8 (.frame false 24)

/-! ## Time arithmetic -/

theorem tdiv_eq_of_nonneg (a : Int) (h : 0 ≤ a) : Int.tdiv a 1000000000 = a / 1000000000 :=
  Int.tdiv_eq_ediv h (by norm_num)

theorem tdiv_nonpos_of_neg (a : Int) (h : a < 0) : Int.tdiv a 1000000000 ≤ 0 := by
  have h1 : 0 ≤ Int.tdiv (-a) 1000000000 := Int.tdiv_nonneg (by omega) (by norm_num)
  rw [Int.neg_tdiv] at h1
  omega

theorem secondsBetween_ge_iff (t c k : Int) (hk : 0 < k) :
    k ≤ secondsBetween t c ↔ c + k * 1000000000 ≤ t := by
  unfold secondsBetween
  rcases le_or_lt 0 (t - c) with h | h
  · rw [tdiv_eq_of_nonneg _ h]; omega
  · have := tdiv_nonpos_of_neg _ h
    omega

theorem secondsBetween_le_iff (t c k : Int) (hk : 0 ≤ k) :
    secondsBetween t c ≤ k ↔ t < c + (k + 1) * 1000000000 := by
  unfold secondsBetween
  rcases le_or_lt 0 (t - c) with h | h
  · rw [tdiv_eq_of_nonneg _ h]; omega
  · have := tdiv_nonpos_of_neg _ h
    omega

theorem imwriteAttempts_append (a b : List Effect) :
    imwriteAttempts (a ++ b) = imwriteAttempts a + imwriteAttempts b := by
  simp [imwriteAttempts]

theorem imwriteAttempts_nil : imwriteAttempts [] = 0 := rfl

theorem fpsStep_fields (s : TrackerState) (c : Int) :
    (fpsStep s c).faceDetected = s.faceDetected ∧
    (fpsStep s c).isInCooldown = s.isInCooldown ∧
    (fpsStep s c).faceDetectionStartTime = s.faceDetectionStartTime ∧
    (fpsStep s c).lastCaptureTimePoint = s.lastCaptureTimePoint ∧
    (fpsStep s c).pictureTaken = s.pictureTaken := by
  simp only [fpsStep]
  split_ifs <;> simp

theorem cooldownStep_blocked (s : TrackerState) (t : Int) (h : Blocked s t) :
    Blocked (cooldownStep s t).1 t ∧ imwriteAttempts (cooldownStep s t).2 = 0 := by
  unfold cooldownStep
  obtain ⟨h1, h2⟩ := h
  split_ifs with a b c
  · have := (secondsBetween_ge_iff t s.lastCaptureTimePoint 5 (by norm_num)).1 b
    refine ⟨⟨h1, ?_⟩, rfl⟩
    rcases h2 with h2 | h2
    · right; simp only; omega
    · right; exact h2
  · have := (secondsBetween_ge_iff t s.lastCaptureTimePoint 5 (by norm_num)).1 b
    refine ⟨⟨h1, ?_⟩, rfl⟩
    rcases h2 with h2 | h2
    · right; simp only; omega
    · right; exact h2
  · exact ⟨⟨h1, h2⟩, rfl⟩
  · exact ⟨⟨h1, h2⟩, rfl⟩

theorem processFace_blocked (s : TrackerState) (t : Int) (face : Rect) (ok : Bool)
    (h : Blocked s t) :
    Blocked (processFace s t face ok).1 t ∧ imwriteAttempts (processFace s t face ok).2 = 0 := by
  obtain ⟨h1, h2⟩ := h
  have hgate : ¬ (s.isInCooldown = false ∧
      secondsBetween t s.faceDetectionStartTime ≤ DETECTION_WINDOW_SECONDS) := by
    rintro ⟨g1, g2⟩
    have := (secondsBetween_le_iff t s.faceDetectionStartTime 1 (by norm_num)).1 g2
    rcases h2 with h2 | h2
    · simp [g1] at h2
    · omega
  unfold processFace classifyStep onsetStep captureGate
  simp only [h1, if_true]
  split_ifs <;> simp_all [Blocked, imwriteAttempts, Effect.isImwrite]

theorem faceLoop_blocked (t : Int) (ok : Nat → Bool) (faces : List Rect) :
    ∀ (k : Nat) (s : TrackerState), Blocked s t →
      Blocked (faceLoop t ok k s faces).1 t ∧ imwriteAttempts (faceLoop t ok k s faces).2 = 0 := by
  induction faces with
  | nil => intro k s h; exact ⟨h, rfl⟩
  | cons face rest ih =>
    intro k s h
    have h1 := processFace_blocked s t face (ok k) h
    have h2 := ih (k + 1) _ h1.1
    simp only [faceLoop, imwriteAttempts_append]
    exact ⟨h2.1, by omega⟩

theorem lossStep_fields (s : TrackerState) (t : Int) (faces : List Rect) :
    imwriteAttempts (lossStep s t faces).2 = 0 ∧
    (lossStep s t faces).1.isInCooldown = s.isInCooldown ∧
    (lossStep s t faces).1.faceDetectionStartTime = s.faceDetectionStartTime ∧
    (lossStep s t faces).1.lastCaptureTimePoint = s.lastCaptureTimePoint ∧
    (lossStep s t faces).1.pictureTaken = s.pictureTaken ∧
    ((lossStep s t faces).1.faceDetected = true → s.faceDetected = true) ∧
    (faces ≠ [] → (lossStep s t faces).1.faceDetected = s.faceDetected) := by
  unfold lossStep
  split_ifs <;> simp_all [imwriteAttempts, Effect.isImwrite]

theorem processFrame_blocked (s : TrackerState) (f : Frame) (T : Int) (h : Blocked s T)
    (hT : T ≤ f.currentTimePoint) :
    imwriteAttempts (processFrame s f).2 = 0 ∧
      ((processFrame s f).1.faceDetected = true → Blocked (processFrame s f).1 f.currentTimePoint) := by
  have h0 : Blocked (fpsStep s f.currentTime) f.currentTimePoint := by
    obtain ⟨a, b, c, d, _⟩ := fpsStep_fields s f.currentTime
    obtain ⟨h1, h2⟩ := h
    refine ⟨by rw [a]; exact h1, ?_⟩
    rw [b, c, d]
    rcases h2 with h2 | h2
    · exact Or.inl h2
    · exact Or.inr (by omega)
  have h1 := cooldownStep_blocked _ _ h0
  simp only [processFrame]
  split_ifs with hp
  · have h2 := faceLoop_blocked f.currentTimePoint f.imwrite f.faces 0 _ h1.1
    obtain ⟨l0, l1, l2, l3, _, l5, _⟩ :=
      lossStep_fields (faceLoop f.currentTimePoint f.imwrite 0
        (cooldownStep (fpsStep s f.currentTime) f.currentTimePoint).1 f.faces).1
        f.currentTimePoint f.faces
    simp only [detectionPass, imwriteAttempts_append]
    refine ⟨by omega, fun hfd => ?_⟩
    refine ⟨hfd, ?_⟩
    rw [l1, l2, l3]
    exact h2.1.2
  · exact ⟨h1.2, fun _ => h1.1⟩

theorem classifyStep_fields (s : TrackerState) (face : Rect) :
    (classifyStep s face).1.faceDetected = s.faceDetected ∧
    (classifyStep s face).1.faceDetectionStartTime = s.faceDetectionStartTime ∧
    (classifyStep s face).1.isInCooldown = s.isInCooldown ∧
    (classifyStep s face).1.lastCaptureTimePoint = s.lastCaptureTimePoint ∧
    (classifyStep s face).1.pictureTaken = s.pictureTaken ∧
    imwriteAttempts (classifyStep s face).2 = 0 := by
  unfold classifyStep
  split_ifs <;> simp [imwriteAttempts, Effect.isImwrite]

theorem onsetStep_fields (s : TrackerState) (t : Int) (face : Rect) :
    (onsetStep s t face).1.faceDetected = true ∧
    (onsetStep s t face).1.faceDetectionStartTime =
      (if s.faceDetected then s.faceDetectionStartTime else t) ∧
    (onsetStep s t face).1.isInCooldown = s.isInCooldown ∧
    (onsetStep s t face).1.lastCaptureTimePoint = s.lastCaptureTimePoint ∧
    (onsetStep s t face).1.pictureTaken = s.pictureTaken ∧
    imwriteAttempts (onsetStep s t face).2 = 0 := by
  unfold onsetStep
  split_ifs <;> simp_all [imwriteAttempts, Effect.isImwrite]

theorem captureGate_fields (s : TrackerState) (t : Int) (ok : Bool) :
    (captureGate s t ok).1.faceDetected = s.faceDetected ∧
    (captureGate s t ok).1.faceDetectionStartTime = s.faceDetectionStartTime ∧
    imwriteAttempts (captureGate s t ok).2 ≤ 1 ∧
    (1 ≤ imwriteAttempts (captureGate s t ok).2 →
      (captureGate s t ok).1.isInCooldown = true ∧
      (captureGate s t ok).1.lastCaptureTimePoint = t) := by
  unfold captureGate captureStep
  split_ifs <;> simp [imwriteAttempts, Effect.isImwrite, reseedEffects]

theorem processFace_onsetPast (s : TrackerState) (t : Int) (face : Rect) (ok : Bool)
    (h : OnsetPast s t) :
    OnsetPast (processFace s t face ok).1 t ∧
      imwriteAttempts (processFace s t face ok).2 ≤ 1 ∧
      (1 ≤ imwriteAttempts (processFace s t face ok).2 → Blocked (processFace s t face ok).1 t) := by
  obtain ⟨a1, a2, _, _, _, a6⟩ := classifyStep_fields s face
  obtain ⟨b1, b2, _, _, _, b6⟩ := onsetStep_fields (classifyStep s face).1 t face
  obtain ⟨c1, c2, c3, c4⟩ := captureGate_fields (onsetStep (classifyStep s face).1 t face).1 t ok
  have hstart : (captureGate (onsetStep (classifyStep s face).1 t face).1 t ok).1.faceDetectionStartTime
      ≤ t := by
    rw [c2, b2, a1, a2]
    split_ifs with hfd
    · exact h hfd
    · exact le_refl _
  simp only [processFace, imwriteAttempts_append]
  refine ⟨fun _ => hstart, by omega, ?_⟩
  intro hc
  obtain ⟨d1, d2⟩ := c4 (by omega)
  refine ⟨by rw [c1, b1], Or.inl ⟨d1, ?_⟩⟩
  rw [d2]
  exact hstart

theorem faceLoop_onsetPast (t : Int) (ok : Nat → Bool) (faces : List Rect) :
    ∀ (k : Nat) (s : TrackerState), OnsetPast s t →
      OnsetPast (faceLoop t ok k s faces).1 t ∧
        imwriteAttempts (faceLoop t ok k s faces).2 ≤ 1 ∧
        (1 ≤ imwriteAttempts (faceLoop t ok k s faces).2 → Blocked (faceLoop t ok k s faces).1 t) := by
  induction faces with
  | nil =>
    intro k s h
    refine ⟨h, by simp [faceLoop, imwriteAttempts], ?_⟩
    simp [faceLoop, imwriteAttempts]
  | cons face rest ih =>
    intro k s h
    obtain ⟨a1, a2, a3⟩ := processFace_onsetPast s t face (ok k) h
    obtain ⟨b1, b2, b3⟩ := ih (k + 1) _ a1
    simp only [faceLoop, imwriteAttempts_append]
    refine ⟨b1, ?_, ?_⟩
    · by_cases hc : 1 ≤ imwriteAttempts (processFace s t face (ok k)).2
      · have := (faceLoop_blocked t ok rest (k + 1) _ (a3 hc)).2
        omega
      · omega
    · intro hc
      by_cases hd : 1 ≤ imwriteAttempts (processFace s t face (ok k)).2
      · exact (faceLoop_blocked t ok rest (k + 1) _ (a3 hd)).1
      · exact b3 (by omega)

theorem cooldownStep_fields (s : TrackerState) (t : Int) :
    (cooldownStep s t).1.faceDetected = s.faceDetected ∧
    (cooldownStep s t).1.faceDetectionStartTime = s.faceDetectionStartTime ∧
    (cooldownStep s t).1.lastCaptureTimePoint = s.lastCaptureTimePoint ∧
    (cooldownStep s t).1.frameCount = s.frameCount ∧
    imwriteAttempts (cooldownStep s t).2 = 0 := by
  unfold cooldownStep
  split_ifs <;> simp [imwriteAttempts, Effect.isImwrite]

theorem processFrame_onsetPast (s : TrackerState) (f : Frame) (T : Int) (h : OnsetPast s T)
    (hT : T ≤ f.currentTimePoint) :
    OnsetPast (processFrame s f).1 f.currentTimePoint ∧
      imwriteAttempts (processFrame s f).2 ≤ 1 ∧
      (1 ≤ imwriteAttempts (processFrame s f).2 → (processFrame s f).1.faceDetected = true →
        Blocked (processFrame s f).1 f.currentTimePoint) := by
  obtain ⟨a, _, c, _, _⟩ := fpsStep_fields s f.currentTime
  obtain ⟨c1, c2, _, _, c5⟩ := cooldownStep_fields (fpsStep s f.currentTime) f.currentTimePoint
  have h1 : OnsetPast (cooldownStep (fpsStep s f.currentTime) f.currentTimePoint).1
      f.currentTimePoint := by
    unfold OnsetPast at h ⊢
    rw [c1, c2, a, c]
    intro hfd
    have := h hfd
    omega
  simp only [processFrame]
  split_ifs with hp
  · obtain ⟨b1, b2, b3⟩ := faceLoop_onsetPast f.currentTimePoint f.imwrite f.faces 0 _ h1
    obtain ⟨l0, l1, l2, l3, _, l5, _⟩ :=
      lossStep_fields (faceLoop f.currentTimePoint f.imwrite 0
        (cooldownStep (fpsStep s f.currentTime) f.currentTimePoint).1 f.faces).1
        f.currentTimePoint f.faces
    simp only [detectionPass, imwriteAttempts_append]
    refine ⟨?_, by omega, ?_⟩
    · unfold OnsetPast at b1 ⊢
      intro hfd
      rw [l2]
      exact b1 (l5 hfd)
    · intro hc hfd
      have hb := b3 (by omega)
      refine ⟨hfd, ?_⟩
      rw [l1, l2, l3]
      exact hb.2
  · refine ⟨h1, by omega, ?_⟩
    intro hc
    omega

theorem runFrames_blocked (fs : List Frame) :
    ∀ (s : TrackerState) (T : Int), Blocked s T → TimesFrom T fs → WithinEpisode s fs →
      imwriteAttempts (runFrames s fs).2 = 0 := by
  induction fs with
  | nil => intro s T _ _ _; rfl
  | cons f fs ih =>
    intro s T hb ht hw
    obtain ⟨p1, p2⟩ := processFrame_blocked s f T hb ht.1
    simp only [runFrames, imwriteAttempts_append]
    cases fs with
    | nil => simp only [runFrames, imwriteAttempts_nil]; omega
    | cons g gs =>
      have := ih _ _ (p2 hw.1) ht.2 hw.2
      omega

theorem runFrames_onsetPast (fs : List Frame) :
    ∀ (s : TrackerState) (T : Int), OnsetPast s T → TimesFrom T fs → WithinEpisode s fs →
      imwriteAttempts (runFrames s fs).2 ≤ 1 := by
  induction fs with
  | nil => intro s T _ _ _; simp [runFrames, imwriteAttempts]
  | cons f fs ih =>
    intro s T hb ht hw
    obtain ⟨p1, p2, p3⟩ := processFrame_onsetPast s f T hb ht.1
    simp only [runFrames, imwriteAttempts_append]
    cases fs with
    | nil => simp only [runFrames, imwriteAttempts_nil]; omega
    | cons g gs =>
      by_cases hc : 1 ≤ imwriteAttempts (processFrame s f).2
      · have := runFrames_blocked (g :: gs) _ _ (p3 hc hw.1) ht.2 hw.2
        omega
      · have := ih _ _ p1 ht.2 hw.2
        omega

theorem runFrames_append (pre : List Frame) :
    ∀ (s : TrackerState) (ep : List Frame),
      runFrames s (pre ++ ep) =
        ((runFrames (runFrames s pre).1 ep).1, (runFrames s pre).2 ++ (runFrames (runFrames s pre).1 ep).2) := by
  induction pre with
  | nil => intro s ep; simp [runFrames]
  | cons f fs ih => intro s ep; simp [runFrames, ih]

theorem episode_after_prefix (pre : List Frame) :
    ∀ (s : TrackerState) (T : Int) (ep : List Frame), OnsetPast s T → TimesFrom T (pre ++ ep) →
      WithinEpisode (runFrames s pre).1 ep →
      imwriteAttempts (runFrames (runFrames s pre).1 ep).2 ≤ 1 := by
  induction pre with
  | nil => intro s T ep h ht hw; exact runFrames_onsetPast ep s T h ht hw
  | cons f fs ih =>
    intro s T ep h ht hw
    exact ih _ _ ep (processFrame_onsetPast s f T h ht.1).1 ht.2 hw

/-- Claim C1: for every run of the main loop from its initial state over frames with
non-decreasing timestamps, with arbitrary face lists and arbitrary results of
`imwrite`, the frames of one presence episode (from the frame that sets
`faceDetected` up to and including the frame that clears it) contain at most one
call of `imwrite`. -/
theorem at_most_one_capture_per_episode (lastFpsTime : Int) (pre ep : List Frame)
    (hmono : NonDecreasing (pre ++ ep))
    (hep : WithinEpisode (runFrames (initialState lastFpsTime) pre).1 ep) :
    imwriteAttempts (runFrames (runFrames (initialState lastFpsTime) pre).1 ep).2 ≤ 1 := by
  cases hl : pre ++ ep with
  | nil =>
    have h1 : pre = [] := by simpa using (List.append_eq_nil.1 hl).1
    have h2 : ep = [] := by simpa using (List.append_eq_nil.1 hl).2
    subst h1 h2
    simp [runFrames, imwriteAttempts]
  | cons f rest =>
    rw [hl] at hmono
    have ht : TimesFrom f.currentTimePoint (pre ++ ep) := by
      rw [hl]; exact ⟨le_refl _, hmono⟩
    exact episode_after_prefix pre _ f.currentTimePoint ep (by intro h; simp [initialState] at h) ht hep

set_option maxRecDepth 1000000 in
/-- Witness for C1: over sixty frames a subject enters at 126 ms, is captured,
flickers and is lost at 2520 ms; the frames 3 to 60 form one episode. -/
theorem at_most_one_capture_per_episode_witness :
    NonDecreasing (pacedRun flickerFaces 2 ++ (pacedRun flickerFaces 60).drop 2) ∧
      WithinEpisode (runFrames (initialState 0) (pacedRun flickerFaces 2)).1
        ((pacedRun flickerFaces 60).drop 2) ∧
      imwriteAttempts (runFrames (runFrames (initialState 0) (pacedRun flickerFaces 2)).1
        ((pacedRun flickerFaces 60).drop 2)).2 ≤ 1 :=
  ⟨by decide, by decide,
    at_most_one_capture_per_episode 0 (pacedRun flickerFaces 2) ((pacedRun flickerFaces 60).drop 2)
      (by decide) (by decide)⟩

/-! ## The detection window -/

theorem captureGate_window (s : TrackerState) (t : Int) (ok : Bool)
    (h : 1 ≤ imwriteAttempts (captureGate s t ok).2) :
    s.isInCooldown = false ∧
      secondsBetween t s.faceDetectionStartTime ≤ DETECTION_WINDOW_SECONDS := by
  unfold captureGate at h
  split_ifs at h with hg
  · exact hg
  · simp [imwriteAttempts] at h

theorem processFace_window (s : TrackerState) (t : Int) (face : Rect) (ok : Bool) :
    (processFace s t face ok).1.faceDetected = true ∧
      (processFace s t face ok).1.faceDetectionStartTime =
        (if s.faceDetected then s.faceDetectionStartTime else t) ∧
      (1 ≤ imwriteAttempts (processFace s t face ok).2 →
        secondsBetween t (processFace s t face ok).1.faceDetectionStartTime ≤
          DETECTION_WINDOW_SECONDS) := by
  obtain ⟨a1, a2, _, _, _, a6⟩ := classifyStep_fields s face
  obtain ⟨b1, b2, _, _, _, b6⟩ := onsetStep_fields (classifyStep s face).1 t face
  obtain ⟨c1, c2, _, _⟩ := captureGate_fields (onsetStep (classifyStep s face).1 t face).1 t ok
  simp only [processFace, imwriteAttempts_append]
  refine ⟨by rw [c1, b1], by rw [c2, b2, a1, a2], ?_⟩
  intro hc
  rw [c2]
  exact (captureGate_window _ t ok (by omega)).2

theorem faceLoop_window (t : Int) (ok : Nat → Bool) (faces : List Rect) :
    ∀ (k : Nat) (s : TrackerState),
      (faces ≠ [] → (faceLoop t ok k s faces).1.faceDetected = true) ∧
        (s.faceDetected = true →
          (faceLoop t ok k s faces).1.faceDetected = true ∧
          (faceLoop t ok k s faces).1.faceDetectionStartTime = s.faceDetectionStartTime) ∧
        (1 ≤ imwriteAttempts (faceLoop t ok k s faces).2 →
          secondsBetween t (faceLoop t ok k s faces).1.faceDetectionStartTime ≤
            DETECTION_WINDOW_SECONDS) := by
  induction faces with
  | nil =>
    intro k s
    refine ⟨fun h => absurd rfl h, fun h => ⟨h, rfl⟩, ?_⟩
    simp [faceLoop, imwriteAttempts]
  | cons face rest ih =>
    intro k s
    obtain ⟨a1, a2, a3⟩ := processFace_window s t face (ok k)
    obtain ⟨_, b2, b3⟩ := ih (k + 1) (processFace s t face (ok k)).1
    obtain ⟨d1, d2⟩ := b2 a1
    simp only [faceLoop, imwriteAttempts_append]
    refine ⟨fun _ => d1, fun hfd => ⟨d1, ?_⟩, ?_⟩
    · rw [d2, a2, if_pos hfd]
    · intro hc
      by_cases hd : 1 ≤ imwriteAttempts (processFace s t face (ok k)).2
      · rw [d2]; exact a3 hd
      · exact b3 (by omega)

theorem faceLoop_nil_attempts (t : Int) (ok : Nat → Bool) (k : Nat) (s : TrackerState) :
    imwriteAttempts (faceLoop t ok k s []).2 = 0 := rfl

theorem detectionPass_window (s : TrackerState) (f : Frame)
    (h : 1 ≤ imwriteAttempts (detectionPass s f).2) :
    (detectionPass s f).1.faceDetected = true ∧
      secondsBetween f.currentTimePoint (detectionPass s f).1.faceDetectionStartTime ≤
        DETECTION_WINDOW_SECONDS ∧
      (s.faceDetected = true →
        (detectionPass s f).1.faceDetectionStartTime = s.faceDetectionStartTime) := by
  obtain ⟨l0, _, l2, _, _, _, l6⟩ :=
    lossStep_fields (faceLoop f.currentTimePoint f.imwrite 0 s f.faces).1 f.currentTimePoint f.faces
  obtain ⟨w1, w2, w3⟩ := faceLoop_window f.currentTimePoint f.imwrite f.faces 0 s
  simp only [detectionPass, imwriteAttempts_append] at h ⊢
  have hne : f.faces ≠ [] := by
    intro he
    rw [he] at h l0
    rw [faceLoop_nil_attempts] at h
    omega
  refine ⟨by rw [l6 hne]; exact w1 hne, by rw [l2]; exact w3 (by omega), ?_⟩
  intro hfd
  rw [l2]
  exact (w2 hfd).2

/-- Claim C2, as amended: whenever a frame calls `imwrite`, a presence episode is
active and the whole seconds elapsed since its onset `faceDetectionStartTime`
are at most 1 (`DETECTION_WINDOW_SECONDS`), that is, the frame is less than 2
seconds after the onset; a frame 2 seconds or more after the onset of the
running episode never calls `imwrite`. -/
theorem capture_within_detection_window (s : TrackerState) (f : Frame) :
    (1 ≤ imwriteAttempts (processFrame s f).2 →
      (processFrame s f).1.faceDetected = true ∧
      secondsBetween f.currentTimePoint (processFrame s f).1.faceDetectionStartTime ≤
        DETECTION_WINDOW_SECONDS ∧
      f.currentTimePoint < (processFrame s f).1.faceDetectionStartTime + 2000000000) ∧
    (s.faceDetected = true → s.faceDetectionStartTime + 2000000000 ≤ f.currentTimePoint →
      imwriteAttempts (processFrame s f).2 = 0) := by
  obtain ⟨a, _, c, _, _⟩ := fpsStep_fields s f.currentTime
  obtain ⟨c1, c2, _, _, c5⟩ := cooldownStep_fields (fpsStep s f.currentTime) f.currentTimePoint
  have key : 1 ≤ imwriteAttempts (processFrame s f).2 →
      (processFrame s f).1.faceDetected = true ∧
      secondsBetween f.currentTimePoint (processFrame s f).1.faceDetectionStartTime ≤
        DETECTION_WINDOW_SECONDS ∧
      (s.faceDetected = true →
        (processFrame s f).1.faceDetectionStartTime = s.faceDetectionStartTime) := by
    simp only [processFrame]
    split_ifs with hp
    · simp only [imwriteAttempts_append]
      intro h
      obtain ⟨w1, w2, w3⟩ := detectionPass_window
        (cooldownStep (fpsStep s f.currentTime) f.currentTimePoint).1 f (by omega)
      refine ⟨w1, w2, fun hfd => ?_⟩
      rw [w3 (by rw [c1, a]; exact hfd), c2, c]
    · intro h
      omega
  constructor
  · intro h
    obtain ⟨k1, k2, _⟩ := key h
    exact ⟨k1, k2, by
      have := (secondsBetween_le_iff f.currentTimePoint _ 1 (by norm_num)).1 k2
      omega⟩
  · intro hfd hlate
    by_contra hne
    obtain ⟨_, k2, k3⟩ := key (by omega)
    have := (secondsBetween_le_iff f.currentTimePoint _ 1 (by norm_num)).1 k2
    rw [k3 hfd] at this
    omega

/-- Witness for C2, as amended: the frame at 6.1 s calls `imwrite` 1.5 s after
the onset at 4.6 s, and a frame at 6.6 s, 2 s after that onset, does not. -/
theorem capture_within_detection_window_witness :
    ((processFrame (runFrames (initialState 0) lateCaptureRun).1 lateCaptureFrame).1.faceDetected
        = true ∧
      secondsBetween lateCaptureFrame.currentTimePoint
        (processFrame (runFrames (initialState 0) lateCaptureRun).1
          lateCaptureFrame).1.faceDetectionStartTime ≤ DETECTION_WINDOW_SECONDS ∧
      lateCaptureFrame.currentTimePoint <
        (processFrame (runFrames (initialState 0) lateCaptureRun).1
          lateCaptureFrame).1.faceDetectionStartTime + 2000000000) ∧
    imwriteAttempts (processFrame (runFrames (initialState 0) lateCaptureRun).1
      (frameAt 6600 [faceA])).2 = 0 :=
  ⟨(capture_within_detection_window (runFrames (initialState 0) lateCaptureRun).1
      lateCaptureFrame).1 (by decide),
    (capture_within_detection_window (runFrames (initialState 0) lateCaptureRun).1
      (frameAt 6600 [faceA])).2 (by decide) (by decide)⟩

/-- Counterexample to C2 as stated: after `lateCaptureRun` an episode with onset at
4.6 s is active; the frame at 6.1 s, 1.5 s after that onset and at the expiry
of the cooldown started at 1.0 s, calls `imwrite`. -/
theorem capture_later_than_one_second :
    (runFrames (initialState 0) lateCaptureRun).1.faceDetected = true ∧
      (runFrames (initialState 0) lateCaptureRun).1.faceDetectionStartTime = 4600000000 ∧
      lateCaptureFrame.currentTimePoint = 6100000000 ∧
      imwriteAttempts
        (processFrame (runFrames (initialState 0) lateCaptureRun).1 lateCaptureFrame).2 = 1 ∧
      (processFrame (runFrames (initialState 0) lateCaptureRun).1
        lateCaptureFrame).1.faceDetectionStartTime = 4600000000 ∧
      ¬ (lateCaptureFrame.currentTimePoint ≤
        (processFrame (runFrames (initialState 0) lateCaptureRun).1
          lateCaptureFrame).1.faceDetectionStartTime + 1000000000) := by
  decide

/-! ## Loss debounce and subject classification on concrete runs -/

set_option maxRecDepth 1000000 in
/-- Claim C3, evaluated on a flickering subject: the subject enters at 126 ms and
is then missed on every second detection pass.  After 59 frames the episode is
active, the subject was last seen at 2394 ms and `noFaceCounter` is 9.  The
pass at 2520 ms finds no face: it is a single miss, 126 ms (0 whole seconds)
after the last sighting, and it ends the episode. -/
theorem single_miss_ends_episode :
    (runFrames (initialState 0) (pacedRun flickerFaces 59)).1.faceDetected = true ∧
      (runFrames (initialState 0) (pacedRun flickerFaces 59)).1.lastFaceSeenTime = 2394000000 ∧
      (runFrames (initialState 0) (pacedRun flickerFaces 59)).1.noFaceCounter = 9 ∧
      ((pacedRun flickerFaces 60).map (fun f => (f.currentTimePoint, f.faces))).drop 56 =
        [(2394000000, [faceA]), (2436000000, [faceA]), (2478000000, [faceA]), (2520000000, [])] ∧
      secondsBetween 2520000000 2394000000 = 0 ∧
      (processFrame (runFrames (initialState 0) (pacedRun flickerFaces 59)).1
        (frameAt 2520 [])).1.faceDetected = false ∧
      (processFrame (runFrames (initialState 0) (pacedRun flickerFaces 59)).1
        (frameAt 2520 [])).2 = [.addKernelLog "Subject lost from view" 1] ∧
      (runFrames (initialState 0) (pacedRun flickerFaces 60)).1.faceDetected = false := by
  decide

set_option maxRecDepth 1000000 in
/-- Claim C4, evaluated on a moving subject: the detector reports `faceA`, then
`faceB`, then `faceA` on three successive passes of one episode.  The centres
of `faceB` and `faceA` are 150 px apart, yet the pass that finds `faceA` after
`faceB` compares it with `lastFaceRect`, still the box of the onset: it sets
`isNewPerson` to false and emits nothing. -/
theorem far_detection_not_classified_new :
    calculateRectDistanceSq faceA faceB = 150 ^ 2 ∧
      ((pacedRun movingFaces 9).map (fun f => (f.currentTimePoint, f.faces))).drop 5 =
        [(252000000, [faceB]), (294000000, [faceB]), (336000000, [faceB]),
          (378000000, [faceA])] ∧
      (processFrame (runFrames (initialState 0) (pacedRun movingFaces 5)).1
        (frameAt 252 [faceB])).2 = [.addKernelLog "New subject detected" 2] ∧
      (runFrames (initialState 0) (pacedRun movingFaces 8)).1.faceDetected = true ∧
      (runFrames (initialState 0) (pacedRun movingFaces 8)).1.lastFaceRect = faceA ∧
      (runFrames (initialState 0) (pacedRun movingFaces 8)).1.isNewPerson = true ∧
      (processFrame (runFrames (initialState 0) (pacedRun movingFaces 8)).1
        (frameAt 378 [faceA])).1.isNewPerson = false ∧
      (processFrame (runFrames (initialState 0) (pacedRun movingFaces 8)).1
        (frameAt 378 [faceA])).2 = [] ∧
      (processFrame (runFrames (initialState 0) (pacedRun movingFaces 8)).1
        (frameAt 378 [faceA])).1.faceDetected = true := by
  decide

/-! ## The log stream -/

theorem evictLoop_drop (rusage : Nat → Option Nat) (q : List KernelLog) :
    ∀ i : Nat, ∃ k : Nat, k ≤ q.length ∧
      evictLoop rusage (i + 1) (currentMemoryAfter rusage i) q = q.drop k ∧
      (∀ j, j < k → MAX_MEMORY_USAGE < currentMemoryAfter rusage (i + j)) ∧
      (k = q.length ∨ currentMemoryAfter rusage (i + k) ≤ MAX_MEMORY_USAGE) := by
  induction q with
  | nil => intro i; exact ⟨0, le_refl _, rfl, fun j hj => absurd hj (Nat.not_lt_zero j), Or.inl rfl⟩
  | cons front rest ih =>
    intro i
    by_cases h : MAX_MEMORY_USAGE < currentMemoryAfter rusage i
    · obtain ⟨k, k1, k2, k3, k4⟩ := ih (i + 1)
      refine ⟨k + 1, by simpa using k1, ?_, ?_, ?_⟩
      · rw [evictLoop, if_pos h]
        have hnext : (match rusage (i + 1) with
            | some m => currentMemoryOf m
            | none => currentMemoryAfter rusage i) = currentMemoryAfter rusage (i + 1) := rfl
        rw [hnext, k2]
        rfl
      · intro j hj
        cases j with
        | zero => exact h
        | succ j =>
          have := k3 j (by omega)
          rwa [show i + (j + 1) = i + 1 + j by omega]
      · rcases k4 with k4 | k4
        · left; simp [k4]
        · right; rwa [show i + (k + 1) = i + 1 + k by omega]
    · refine ⟨0, Nat.zero_le _, ?_, fun j hj => absurd hj (Nat.not_lt_zero j), Or.inr (by simpa using h)⟩
      rw [evictLoop, if_neg h]
      rfl

theorem memoryCheck_drop (rusage : Nat → Option Nat) (q : List KernelLog) :
    ∃ k : Nat, k ≤ q.length ∧ memoryCheck rusage q = q.drop k := by
  unfold memoryCheck
  cases h : rusage 0 with
  | none => exact ⟨0, Nat.zero_le _, rfl⟩
  | some m =>
    simp only
    split_ifs with hm
    · obtain ⟨k, k1, k2, _, _⟩ := evictLoop_drop rusage q 0
      have h0 : currentMemoryAfter rusage 0 = currentMemoryOf m := by
        simp [currentMemoryAfter, h]
      rw [h0] at k2
      exact ⟨k, k1, k2⟩
    · exact ⟨0, Nat.zero_le _, rfl⟩

theorem memoryCheck_length_le (rusage : Nat → Option Nat) (q : List KernelLog) :
    (memoryCheck rusage q).length ≤ q.length := by
  obtain ⟨k, _, hk⟩ := memoryCheck_drop rusage q
  rw [hk, List.length_drop]
  omega

theorem addKernelLog_length_le (env : LogCallEnv) (message : String) (severity : Int)
    (q : List KernelLog) (h : q.length ≤ MAX_QUEUE_SIZE) :
    (addKernelLog env message severity q).length ≤ MAX_QUEUE_SIZE := by
  have := memoryCheck_length_le env.rusage q
  unfold addKernelLog
  split_ifs with hlt
  · rw [List.length_append, List.length_singleton]
    omega
  · omega

theorem applyEffect_length_le (env : LogCallEnv) (q : List KernelLog) (e : Effect)
    (h : q.length ≤ MAX_QUEUE_SIZE) : (applyEffect env q e).length ≤ MAX_QUEUE_SIZE := by
  cases e with
  | addKernelLog message severity => exact addKernelLog_length_le env message severity q h
  | clearKernelLogs => exact Nat.zero_le _
  | imwrite ok => exact h

theorem applyEffects_length_le (envs : Nat → LogCallEnv) (es : List Effect) :
    ∀ (k : Nat) (q : List KernelLog), q.length ≤ MAX_QUEUE_SIZE →
      (applyEffects envs k q es).length ≤ MAX_QUEUE_SIZE := by
  induction es with
  | nil => intro k q h; exact h
  | cons e es ih => intro k q h; exact ih (k + 1) _ (applyEffect_length_le (envs k) q e h)

theorem applyLogOp_length_le (q : List KernelLog) (op : LogOp) (h : q.length ≤ MAX_QUEUE_SIZE) :
    (applyLogOp q op).length ≤ MAX_QUEUE_SIZE := by
  cases op with
  | add env message severity => exact addKernelLog_length_le env message severity q h
  | clear => exact Nat.zero_le _
  | clearAndReseed envs => exact applyEffects_length_le envs reseedEffects 0 [] (Nat.zero_le _)

theorem applyLogOps_length_le (ops : List LogOp) :
    ∀ q : List KernelLog, q.length ≤ MAX_QUEUE_SIZE →
      (applyLogOps q ops).length ≤ MAX_QUEUE_SIZE := by
  induction ops with
  | nil => intro q h; exact h
  | cons op ops ih => intro q h; exact ih _ (applyLogOp_length_le q op h)

/-- Claim C5: starting from the empty queue, after any sequence of `addKernelLog`
calls (any message, severity and `getrusage` results), clearings and
clear-and-reseed operations, the queue holds at most 100 entries
(`MAX_QUEUE_SIZE`). -/
theorem queue_never_exceeds_capacity (ops : List LogOp) :
    (applyLogOps [] ops).length ≤ MAX_QUEUE_SIZE :=
  applyLogOps_length_le ops [] (Nat.zero_le _)

/-- Claim C6: on a queue within its capacity, a call of `addKernelLog` whose first
memory reading is above the ceiling removes the `k` oldest entries and appends
the new entry after the survivors, where the reading was above the ceiling
before each of the `k` removals and removal stopped because the queue was empty
or the current reading was no longer above the ceiling; a call whose first
reading is unavailable or not above the ceiling, on a queue of 100 entries,
leaves the queue unchanged. -/
theorem addKernelLog_admission (env : LogCallEnv) (message : String) (severity : Int)
    (q : List KernelLog) (hq : q.length ≤ MAX_QUEUE_SIZE) :
    (∀ m, env.rusage 0 = some m → MAX_MEMORY_USAGE < currentMemoryOf m →
      ∃ k : Nat, k ≤ q.length ∧
        addKernelLog env message severity q = q.drop k ++ [⟨env.timestamp, message, severity⟩] ∧
        (∀ j, j < k → MAX_MEMORY_USAGE < currentMemoryAfter env.rusage j) ∧
        (k = q.length ∨ currentMemoryAfter env.rusage k ≤ MAX_MEMORY_USAGE)) ∧
    ((env.rusage 0 = none ∨ ∃ m, env.rusage 0 = some m ∧ currentMemoryOf m ≤ MAX_MEMORY_USAGE) →
      q.length = MAX_QUEUE_SIZE → addKernelLog env message severity q = q) := by
  constructor
  · intro m hm habove
    obtain ⟨k, k1, k2, k3, k4⟩ := evictLoop_drop env.rusage q 0
    have h0 : currentMemoryAfter env.rusage 0 = currentMemoryOf m := by
      simp [currentMemoryAfter, hm]
    have hcheck : memoryCheck env.rusage q = q.drop k := by
      unfold memoryCheck
      rw [hm]
      simp only
      rw [if_pos habove, ← h0]
      exact k2
    have hlen : (q.drop k).length < MAX_QUEUE_SIZE := by
      rw [List.length_drop]
      rcases k4 with k4 | k4
      · rw [k4]; simp [MAX_QUEUE_SIZE]
      · simp only [Nat.zero_add] at k4
        have hk : k ≠ 0 := by
          intro hk0
          rw [hk0, h0] at k4
          omega
        omega
    refine ⟨k, k1, ?_, ?_, ?_⟩
    · unfold addKernelLog
      rw [hcheck, if_pos hlen]
    · intro j hj
      simpa using k3 j hj
    · simpa using k4
  · intro hlow hfull
    have hcheck : memoryCheck env.rusage q = q := by
      unfold memoryCheck
      rcases hlow with h | ⟨m, h, hm⟩
      · rw [h]
      · rw [h]
        simp only
        rw [if_neg (by omega)]
    unfold addKernelLog
    rw [hcheck, if_neg (by omega)]

/-- Witness for C6: with a constant reading of 400 MB the three entries of the
queue are evicted before the new one is appended; with a reading of 100 MB a
queue of 100 entries is left unchanged. -/
theorem addKernelLog_admission_witness :
    (∃ k : Nat, k ≤ (numberedLogs 3).length ∧
        addKernelLog (constantEnv 400000 "12:00:01.000") "System active" 0 (numberedLogs 3) =
          (numberedLogs 3).drop k ++ [⟨"12:00:01.000", "System active", 0⟩] ∧
        (∀ j, j < k →
          MAX_MEMORY_USAGE < currentMemoryAfter (constantEnv 400000 "12:00:01.000").rusage j) ∧
        (k = (numberedLogs 3).length ∨
          currentMemoryAfter (constantEnv 400000 "12:00:01.000").rusage k ≤ MAX_MEMORY_USAGE)) ∧
      addKernelLog (constantEnv 100000 "12:00:01.000") "System active" 0 (numberedLogs 100) =
        numberedLogs 100 :=
  ⟨(addKernelLog_admission (constantEnv 400000 "12:00:01.000") "System active" 0 (numberedLogs 3)
      (by decide)).1 400000 rfl (by decide),
    (addKernelLog_admission (constantEnv 100000 "12:00:01.000") "System active" 0 (numberedLogs 100)
      (by decide)).2 (Or.inr ⟨100000, rfl, by decide⟩) (by decide)⟩

theorem memoryCheck_not_above (env : LogCallEnv) (q : List KernelLog)
    (h : firstReadingAbove env = false) : memoryCheck env.rusage q = q := by
  unfold firstReadingAbove at h
  unfold memoryCheck
  cases hr : env.rusage 0 with
  | none => rfl
  | some m =>
    rw [hr] at h
    simp only [decide_eq_false_iff_not] at h
    simp only
    rw [if_neg h]

theorem memoryCheck_above (env : LogCallEnv) (front : KernelLog) (rest : List KernelLog)
    (h : firstReadingAbove env = true) :
    (memoryCheck env.rusage (front :: rest)).length ≤ rest.length := by
  unfold firstReadingAbove at h
  unfold memoryCheck
  cases hr : env.rusage 0 with
  | none => rw [hr] at h; simp at h
  | some m =>
    rw [hr] at h
    simp only [decide_eq_true_eq] at h
    simp only
    rw [if_pos h, evictLoop, if_pos h]
    obtain ⟨k, _, hk, _, _⟩ := evictLoop_drop env.rusage rest 1
    have hcur : (match env.rusage 1 with
        | some m => currentMemoryOf m
        | none => currentMemoryOf m) = currentMemoryAfter env.rusage 1 := by
      simp [currentMemoryAfter, hr]
    rw [hcur, hk, List.length_drop]
    omega

theorem addKernelLog_length_succ (env : LogCallEnv) (message : String) (severity : Int)
    (q : List KernelLog) :
    (addKernelLog env message severity q).length ≤ q.length + 1 := by
  have := memoryCheck_length_le env.rusage q
  unfold addKernelLog
  split_ifs
  · rw [List.length_append, List.length_singleton]; omega
  · omega

theorem addKernelLog_above_length (env : LogCallEnv) (message : String) (severity : Int)
    (q : List KernelLog) (h : firstReadingAbove env = true) (hq : 0 < q.length) :
    (addKernelLog env message severity q).length ≤ q.length := by
  cases q with
  | nil => simp at hq
  | cons front rest =>
    have := memoryCheck_above env front rest h
    unfold addKernelLog
    split_ifs
    · rw [List.length_append, List.length_singleton, List.length_cons]; omega
    · rw [List.length_cons]; omega

theorem addKernelLog_not_above (env : LogCallEnv) (message : String) (severity : Int)
    (q : List KernelLog) (h : firstReadingAbove env = false) (hq : q.length < MAX_QUEUE_SIZE) :
    addKernelLog env message severity q = q ++ [⟨env.timestamp, message, severity⟩] := by
  unfold addKernelLog
  rw [memoryCheck_not_above env q h, if_pos hq]

theorem addKernelLog_nil (env : LogCallEnv) (message : String) (severity : Int) :
    addKernelLog env message severity [] = [⟨env.timestamp, message, severity⟩] := by
  have h : memoryCheck env.rusage [] = [] := by
    obtain ⟨k, _, hk⟩ := memoryCheck_drop env.rusage []
    simpa using hk
  unfold addKernelLog
  rw [h]
  rfl

/-- Without calls of other threads in between: after the capture step with a
successful persistence the queue is what the four reseeding calls build from
the empty queue, and it is the fixed set of four entries if and only if, at each
of the last three reseeding calls, the first memory reading is unavailable or
not above the ceiling. -/
theorem capture_reseeds_log_sequential (envs : Nat → LogCallEnv) (k : Nat) (q : List KernelLog)
    (s : TrackerState) (t : Int) :
    applyEffects envs k q (captureStep s t true).2 =
        applyEffects envs (k + 3) [] reseedEffects ∧
      (applyEffects envs k q (captureStep s t true).2 =
          [⟨(envs (k + 3)).timestamp, "Analysis in progress", 3⟩,
            ⟨(envs (k + 4)).timestamp, "Processing data", 3⟩,
            ⟨(envs (k + 5)).timestamp, "Scan in progress", 3⟩,
            ⟨(envs (k + 6)).timestamp, "Searching database", 3⟩] ↔
        firstReadingAbove (envs (k + 4)) = false ∧ firstReadingAbove (envs (k + 5)) = false ∧
          firstReadingAbove (envs (k + 6)) = false) := by
  have hsame : applyEffects envs k q (captureStep s t true).2 =
      applyEffects envs (k + 3) [] reseedEffects := by
    simp [captureStep, applyEffects, applyEffect]
  refine ⟨hsame, ?_⟩
  rw [hsame]
  simp only [reseedEffects, applyEffects, applyEffect, addKernelLog_nil]
  constructor
  · intro h
    have hlen := congrArg List.length h
    simp only [List.length_cons, List.length_nil] at hlen
    have l1 := addKernelLog_length_succ (envs (k + 3 + 1)) "Processing data" 3
      [⟨(envs (k + 3)).timestamp, "Analysis in progress", 3⟩]
    simp only [List.length_cons, List.length_nil] at l1
    have l2 := addKernelLog_length_succ (envs (k + 3 + 1 + 1)) "Scan in progress" 3
      (addKernelLog (envs (k + 3 + 1)) "Processing data" 3
        [⟨(envs (k + 3)).timestamp, "Analysis in progress", 3⟩])
    have l3 := addKernelLog_length_succ (envs (k + 3 + 1 + 1 + 1)) "Searching database" 3
      (addKernelLog (envs (k + 3 + 1 + 1)) "Scan in progress" 3
        (addKernelLog (envs (k + 3 + 1)) "Processing data" 3
          [⟨(envs (k + 3)).timestamp, "Analysis in progress", 3⟩]))
    refine ⟨?_, ?_, ?_⟩
    · by_contra h4
      have := addKernelLog_above_length (envs (k + 3 + 1)) "Processing data" 3
        [⟨(envs (k + 3)).timestamp, "Analysis in progress", 3⟩] (by simpa using h4)
        (by simp)
      simp only [List.length_cons, List.length_nil] at this
      omega
    · by_contra h5
      have := addKernelLog_above_length (envs (k + 3 + 1 + 1)) "Scan in progress" 3
        (addKernelLog (envs (k + 3 + 1)) "Processing data" 3
          [⟨(envs (k + 3)).timestamp, "Analysis in progress", 3⟩]) (by simpa using h5)
        (by omega)
      omega
    · by_contra h6
      have := addKernelLog_above_length (envs (k + 3 + 1 + 1 + 1)) "Searching database" 3
        (addKernelLog (envs (k + 3 + 1 + 1)) "Scan in progress" 3
          (addKernelLog (envs (k + 3 + 1)) "Processing data" 3
            [⟨(envs (k + 3)).timestamp, "Analysis in progress", 3⟩])) (by simpa using h6)
        (by omega)
      omega
  · rintro ⟨h4, h5, h6⟩
    rw [addKernelLog_not_above (envs (k + 3 + 1)) _ _ _ h4 (by simp [MAX_QUEUE_SIZE])]
    rw [addKernelLog_not_above (envs (k + 3 + 1 + 1)) _ _ _ h5 (by simp [MAX_QUEUE_SIZE])]
    rw [addKernelLog_not_above (envs (k + 3 + 1 + 1 + 1)) _ _ _ h6 (by simp [MAX_QUEUE_SIZE])]
    rfl

theorem applyLogOps_append (q : List KernelLog) (a b : List LogOp) :
    applyLogOps q (a ++ b) = applyLogOps (applyLogOps q a) b := by
  simp [applyLogOps, List.foldl_append]

theorem applyLogOps_clear (q : List KernelLog) (b : List LogOp) :
    applyLogOps q (LogOp.clear :: b) = applyLogOps [] b := rfl

theorem applyLogOps_add (q : List KernelLog) (env : LogCallEnv) (message : String)
    (severity : Int) (b : List LogOp) :
    applyLogOps q (LogOp.add env message severity :: b) =
      applyLogOps (addKernelLog env message severity q) b := rfl

theorem applyLogOps_nil (q : List KernelLog) : applyLogOps q [] = q := rfl

/-- Claim C7, as amended: for every prior log content and whatever calls of
`addKernelLog` other threads make in between, immediately after the capture
step with a successful persistence the log stream is what the calls made after
the swap of lines 459-463 build from the empty queue, so it holds none of the
entries it held before; when no call of another thread falls between the swap
and the last reseeding call, it consists of exactly "Analysis in progress",
"Processing data", "Scan in progress", "Searching database" (each severity 3)
in this order if and only if, at each of the last three reseeding calls, the
first memory reading is unavailable or not above the ceiling. -/
theorem capture_reseeds_log_interleaved (envs : Nat → LogCallEnv)
    (others : Nat → List OtherCall) (k : Nat) (q : List KernelLog) (s : TrackerState)
    (t : Int) :
    applyLogOps q (interleavedOps envs others k (captureStep s t true).2) =
        applyLogOps [] (interleavedOps envs others (k + 3) reseedEffects) ∧
      (others (k + 3) = [] → others (k + 4) = [] → others (k + 5) = [] →
        others (k + 6) = [] →
        (applyLogOps q (interleavedOps envs others k (captureStep s t true).2) =
            [⟨(envs (k + 3)).timestamp, "Analysis in progress", 3⟩,
              ⟨(envs (k + 4)).timestamp, "Processing data", 3⟩,
              ⟨(envs (k + 5)).timestamp, "Scan in progress", 3⟩,
              ⟨(envs (k + 6)).timestamp, "Searching database", 3⟩] ↔
          firstReadingAbove (envs (k + 4)) = false ∧
            firstReadingAbove (envs (k + 5)) = false ∧
            firstReadingAbove (envs (k + 6)) = false)) := by
  have hsame : applyLogOps q (interleavedOps envs others k (captureStep s t true).2) =
      applyLogOps [] (interleavedOps envs others (k + 3) reseedEffects) := by
    have htrace : (captureStep s t true).2 =
        Effect.imwrite true :: Effect.addKernelLog "Image captured" 3 ::
          Effect.clearKernelLogs :: reseedEffects := rfl
    rw [htrace]
    simp only [interleavedOps, effectOps, List.append_nil, List.append_assoc,
      List.singleton_append, applyLogOps_append, applyLogOps_clear, applyLogOps_add]
  refine ⟨hsame, ?_⟩
  intro h3 h4 h5 h6
  have hseq : applyLogOps [] (interleavedOps envs others (k + 3) reseedEffects) =
      applyEffects envs k q (captureStep s t true).2 := by
    rw [(capture_reseeds_log_sequential envs k q s t).1]
    simp only [reseedEffects, interleavedOps, effectOps, otherOps, h3, h4, h5, h6, List.map_nil,
      List.nil_append, List.append_nil, List.singleton_append, applyLogOps_add, applyLogOps_nil,
      applyEffects, applyEffect]
  rw [hsame, hseq]
  exact (capture_reseeds_log_sequential envs k q s t).2

/-- Witness for C7, as amended: no call of another thread and a memory reading of
100 MB at every call. -/
theorem capture_reseeds_log_interleaved_witness :
    applyLogOps (numberedLogs 3) (interleavedOps (fun _ => constantEnv 100000 "12:00:01.000")
        (fun _ => []) 0 (captureStep (initialState 0) 1000000000 true).2) =
          [⟨"12:00:01.000", "Analysis in progress", 3⟩, ⟨"12:00:01.000", "Processing data", 3⟩,
            ⟨"12:00:01.000", "Scan in progress", 3⟩, ⟨"12:00:01.000", "Searching database", 3⟩] ↔
        firstReadingAbove (constantEnv 100000 "12:00:01.000") = false ∧
          firstReadingAbove (constantEnv 100000 "12:00:01.000") = false ∧
          firstReadingAbove (constantEnv 100000 "12:00:01.000") = false :=
  (capture_reseeds_log_interleaved (fun _ => constantEnv 100000 "12:00:01.000") (fun _ => []) 0
    (numberedLogs 3) (initialState 0) 1000000000).2 rfl rfl rfl rfl

/-- A call of `generateRandomLogs` that falls between the swap and the first
reseeding call stays in the queue: with every memory reading at 100 MB the log
holds five entries after the capture step. -/
theorem reseed_with_interleaved_call :
    (applyLogOps (numberedLogs 3) (interleavedOps (fun _ => constantEnv 100000 "12:00:01.000")
        (fun i => if i = 3 then [⟨constantEnv 100000 "12:00:01.000", "System active", 0⟩] else [])
        0 (captureStep (initialState 0) 1000000000 true).2)).map (fun e => e.message) =
      ["System active", "Analysis in progress", "Processing data", "Scan in progress",
        "Searching database"] := by
  decide

/-- Counterexample to C7 as stated: with a memory reading of 400 MB at every
`getrusage` call, the log holds only "Searching database" after the capture step
with a successful persistence. -/
theorem reseed_under_memory_pressure :
    (applyEffects (fun _ => constantEnv 400000 "12:00:01.000") 0 (numberedLogs 3)
      (captureStep (initialState 0) 1000000000 true).2) =
        [⟨"12:00:01.000", "Searching database", 3⟩] := by
  decide

/-! ## Cooldown expiry -/

theorem completions_append (a b : List Effect) :
    completions (a ++ b) = completions a + completions b := by
  simp [completions]

theorem completions_nil : completions [] = 0 := rfl

theorem imwriteAttempts_eq_zero_iff (a : List Effect) :
    imwriteAttempts a = 0 ↔ ∀ b, Effect.imwrite b ∉ a := by
  unfold imwriteAttempts
  rw [List.countP_eq_zero]
  constructor
  · intro h b hb
    exact h _ hb rfl
  · intro h e he
    cases e with
    | imwrite b => exact absurd he (h b)
    | addKernelLog m sv => simp [Effect.isImwrite]
    | clearKernelLogs => simp [Effect.isImwrite]

theorem beforeNextCapture_append_quiet (a b : List Effect) (h : imwriteAttempts a = 0) :
    beforeNextCapture (a ++ b) = a ++ beforeNextCapture b := by
  induction a with
  | nil => rfl
  | cons e es ih =>
    have he : e.isImwrite = false := by
      unfold imwriteAttempts at h
      rw [List.countP_eq_zero] at h
      simpa using h e (List.mem_cons_self _ _)
    have hes : imwriteAttempts es = 0 := by
      unfold imwriteAttempts at h ⊢
      rw [List.countP_eq_zero] at h ⊢
      intro x hx
      exact h x (List.mem_cons_of_mem _ hx)
    have := ih hes
    unfold beforeNextCapture at this ⊢
    simp [List.takeWhile, he, this]

theorem beforeNextCapture_append_capture (a b : List Effect) (h : 1 ≤ imwriteAttempts a) :
    beforeNextCapture (a ++ b) = beforeNextCapture a := by
  induction a with
  | nil => simp [imwriteAttempts] at h
  | cons e es ih =>
    by_cases he : e.isImwrite = true
    · simp [beforeNextCapture, List.takeWhile, he]
    · have hes : 1 ≤ imwriteAttempts es := by
        unfold imwriteAttempts at h ⊢
        rw [List.countP_cons_of_neg _ _ he] at h
        exact h
      have := ih hes
      unfold beforeNextCapture at this ⊢
      simp only [Bool.not_eq_true] at he
      simp [List.takeWhile, he, this]

theorem completions_beforeNextCapture_le (a : List Effect) :
    completions (beforeNextCapture a) ≤ completions a := by
  unfold completions beforeNextCapture
  exact (List.takeWhile_sublist _).count_le _

theorem classifyStep_quiet (s : TrackerState) (face : Rect) :
    completions (classifyStep s face).2 = 0 := by
  unfold classifyStep
  split_ifs <;> simp [completions, analysisComplete]

theorem onsetStep_quiet (s : TrackerState) (t : Int) (face : Rect) :
    completions (onsetStep s t face).2 = 0 := by
  unfold onsetStep
  split_ifs <;> simp [completions, analysisComplete]

theorem lossStep_quiet (s : TrackerState) (t : Int) (faces : List Rect) :
    completions (lossStep s t faces).2 = 0 := by
  unfold lossStep
  split_ifs <;> simp [completions, analysisComplete]

theorem captureGate_cases (s : TrackerState) (t : Int) (ok : Bool) :
    captureGate s t ok = (s, []) ∨
      (s.isInCooldown = false ∧ captureGate s t ok = captureStep s t ok) := by
  unfold captureGate
  split_ifs with h
  · exact Or.inr ⟨h.1, rfl⟩
  · exact Or.inl rfl

theorem captureStep_fields (s : TrackerState) (t : Int) (ok : Bool) :
    (captureStep s t ok).1.isInCooldown = true ∧
      (captureStep s t ok).1.lastCaptureTimePoint = t ∧
      (captureStep s t ok).1.pictureTaken = (ok || s.pictureTaken) ∧
      completions (captureStep s t ok).2 = 0 ∧
      imwriteAttempts (captureStep s t ok).2 = 1 ∧
      (∀ b, Effect.imwrite b ∈ (captureStep s t ok).2 ↔ b = ok) := by
  unfold captureStep
  cases ok <;>
    simp [completions, analysisComplete, imwriteAttempts, Effect.isImwrite, reseedEffects, eq_comm]

/-- What one face does to the capture state: nothing, or one capture. -/
theorem processFace_capture (s : TrackerState) (t : Int) (face : Rect) (ok : Bool) :
    completions (processFace s t face ok).2 = 0 ∧
      ((imwriteAttempts (processFace s t face ok).2 = 0 ∧
          (processFace s t face ok).1.isInCooldown = s.isInCooldown ∧
          (processFace s t face ok).1.lastCaptureTimePoint = s.lastCaptureTimePoint ∧
          (processFace s t face ok).1.pictureTaken = s.pictureTaken) ∨
        (s.isInCooldown = false ∧
          imwriteAttempts (processFace s t face ok).2 = 1 ∧
          Held (processFace s t face ok).1 t (ok || s.pictureTaken) ∧
          (∀ b, Effect.imwrite b ∈ (processFace s t face ok).2 ↔ b = ok))) := by
  obtain ⟨_, _, a3, a4, a5, a6⟩ := classifyStep_fields s face
  obtain ⟨_, _, b3, b4, b5, b6⟩ := onsetStep_fields (classifyStep s face).1 t face
  have q1 := classifyStep_quiet s face
  have q2 := onsetStep_quiet (classifyStep s face).1 t face
  have m1 := (imwriteAttempts_eq_zero_iff _).1 a6
  have m2 := (imwriteAttempts_eq_zero_iff _).1 b6
  simp only [processFace, imwriteAttempts_append, completions_append, List.mem_append]
  rcases captureGate_cases (onsetStep (classifyStep s face).1 t face).1 t ok with hg | ⟨hc, hg⟩
  · rw [hg]
    refine ⟨by simp [q1, q2, completions_nil], Or.inl ⟨by simp [a6, b6, imwriteAttempts_nil], ?_, ?_, ?_⟩⟩
    · rw [b3, a3]
    · rw [b4, a4]
    · rw [b5, a5]
  · rw [hg]
    obtain ⟨c1, c2, c3, c4, c5, c6⟩ := captureStep_fields (onsetStep (classifyStep s face).1 t face).1 t ok
    refine ⟨by omega, Or.inr ⟨by rw [← a3, ← b3]; exact hc, by omega, ⟨c1, c2, ?_⟩, ?_⟩⟩
    · rw [c3, b5, a5]
    · intro b
      rw [← c6 b]
      constructor
      · rintro ((h | h) | h)
        · exact absurd h (m1 b)
        · exact absurd h (m2 b)
        · exact h
      · intro h
        exact Or.inr h

theorem faceLoop_capture (t : Int) (ok : Nat → Bool) (faces : List Rect) :
    ∀ (k : Nat) (s : TrackerState),
      completions (faceLoop t ok k s faces).2 = 0 ∧
        ((imwriteAttempts (faceLoop t ok k s faces).2 = 0 ∧
            (faceLoop t ok k s faces).1.isInCooldown = s.isInCooldown ∧
            (faceLoop t ok k s faces).1.lastCaptureTimePoint = s.lastCaptureTimePoint ∧
            (faceLoop t ok k s faces).1.pictureTaken = s.pictureTaken) ∨
          (∃ r : Bool, s.isInCooldown = false ∧
            imwriteAttempts (faceLoop t ok k s faces).2 = 1 ∧
            Held (faceLoop t ok k s faces).1 t (r || s.pictureTaken) ∧
            (∀ b, Effect.imwrite b ∈ (faceLoop t ok k s faces).2 ↔ b = r))) := by
  induction faces with
  | nil => intro k s; exact ⟨rfl, Or.inl ⟨rfl, rfl, rfl, rfl⟩⟩
  | cons face rest ih =>
    intro k s
    obtain ⟨p0, p⟩ := processFace_capture s t face (ok k)
    obtain ⟨i0, i⟩ := ih (k + 1) (processFace s t face (ok k)).1
    simp only [faceLoop, imwriteAttempts_append, completions_append, List.mem_append]
    refine ⟨by omega, ?_⟩
    rcases p with ⟨p1, p2, p3, p4⟩ | ⟨p1, p2, p3, p4⟩
    · rcases i with ⟨i1, i2, i3, i4⟩ | ⟨r, i1, i2, i3, i4⟩
      · exact Or.inl ⟨by omega, by rw [i2, p2], by rw [i3, p3], by rw [i4, p4]⟩
      · refine Or.inr ⟨r, by rw [← p2]; exact i1, by omega, by rw [← p4]; exact i3, ?_⟩
        intro b
        rw [← i4 b]
        have := (imwriteAttempts_eq_zero_iff _).1 p1 b
        constructor
        · rintro (h | h)
          · exact absurd h this
          · exact h
        · intro h
          exact Or.inr h
    · rcases i with ⟨i1, i2, i3, i4⟩ | ⟨r, i1, i2, i3, i4⟩
      · refine Or.inr ⟨ok k, p1, by omega, ⟨by rw [i2]; exact p3.1, by rw [i3]; exact p3.2.1,
          by rw [i4]; exact p3.2.2⟩, ?_⟩
        intro b
        rw [← p4 b]
        have := (imwriteAttempts_eq_zero_iff _).1 i1 b
        constructor
        · rintro (h | h)
          · exact h
          · exact absurd h this
        · intro h
          exact Or.inl h
      · rw [p3.1] at i1
        exact absurd i1 (by simp)

theorem detectionPass_capture (s : TrackerState) (f : Frame) :
    completions (detectionPass s f).2 = 0 ∧
      ((imwriteAttempts (detectionPass s f).2 = 0 ∧
          (detectionPass s f).1.isInCooldown = s.isInCooldown ∧
          (detectionPass s f).1.lastCaptureTimePoint = s.lastCaptureTimePoint ∧
          (detectionPass s f).1.pictureTaken = s.pictureTaken) ∨
        (∃ r : Bool, s.isInCooldown = false ∧
          imwriteAttempts (detectionPass s f).2 = 1 ∧
          Held (detectionPass s f).1 f.currentTimePoint (r || s.pictureTaken) ∧
          (∀ b, Effect.imwrite b ∈ (detectionPass s f).2 ↔ b = r))) := by
  obtain ⟨l0, l1, _, l3, l4, _, _⟩ :=
    lossStep_fields (faceLoop f.currentTimePoint f.imwrite 0 s f.faces).1 f.currentTimePoint f.faces
  have lq := lossStep_quiet (faceLoop f.currentTimePoint f.imwrite 0 s f.faces).1
    f.currentTimePoint f.faces
  have lm := (imwriteAttempts_eq_zero_iff _).1 l0
  obtain ⟨i0, i⟩ := faceLoop_capture f.currentTimePoint f.imwrite f.faces 0 s
  simp only [detectionPass, imwriteAttempts_append, completions_append, List.mem_append]
  refine ⟨by omega, ?_⟩
  rcases i with ⟨i1, i2, i3, i4⟩ | ⟨r, i1, i2, i3, i4⟩
  · exact Or.inl ⟨by omega, by rw [l1, i2], by rw [l3, i3], by rw [l4, i4]⟩
  · refine Or.inr ⟨r, i1, by omega, ⟨by rw [l1]; exact i3.1, by rw [l3]; exact i3.2.1,
      by rw [l4]; exact i3.2.2⟩, ?_⟩
    intro b
    rw [← i4 b]
    constructor
    · rintro (h | h)
      · exact h
      · exact absurd h (lm b)
    · intro h
      exact Or.inl h

theorem cooldownStep_cases (s : TrackerState) (t : Int) :
    (s.isInCooldown = true ∧ COOLDOWN_SECONDS ≤ secondsBetween t s.lastCaptureTimePoint ∧
        (cooldownStep s t).1.isInCooldown = false ∧ (cooldownStep s t).1.pictureTaken = false ∧
        (cooldownStep s t).2 = (if s.pictureTaken then [analysisComplete] else [])) ∨
      ((s.isInCooldown = false ∨ secondsBetween t s.lastCaptureTimePoint < COOLDOWN_SECONDS) ∧
        cooldownStep s t = (s, [])) := by
  unfold cooldownStep
  by_cases h1 : s.isInCooldown = true
  · by_cases h2 : COOLDOWN_SECONDS ≤ secondsBetween t s.lastCaptureTimePoint
    · by_cases h3 : s.pictureTaken = true
      · rw [if_pos h1, if_pos h2, if_pos h3]
        exact Or.inl ⟨h1, h2, rfl, rfl, by simp [analysisComplete, h3]⟩
      · rw [if_pos h1, if_pos h2, if_neg h3]
        exact Or.inl ⟨h1, h2, rfl, by simpa using h3, by simp [h3]⟩
    · rw [if_pos h1, if_neg h2]
      exact Or.inr ⟨Or.inr (by omega), rfl⟩
  · rw [if_neg h1]
    exact Or.inr ⟨Or.inl (by simpa using h1), rfl⟩

theorem processFrame_held (s : TrackerState) (f : Frame) (c : Int) (p : Bool) (h : Held s c p)
    (hc : secondsBetween f.currentTimePoint c < COOLDOWN_SECONDS) :
    Held (processFrame s f).1 c p ∧ completions (processFrame s f).2 = 0 ∧
      imwriteAttempts (processFrame s f).2 = 0 := by
  obtain ⟨_, f2, _, f4, f5⟩ := fpsStep_fields s f.currentTime
  obtain ⟨h1, h2, h3⟩ := h
  have hcd : cooldownStep (fpsStep s f.currentTime) f.currentTimePoint =
      (fpsStep s f.currentTime, []) := by
    rcases cooldownStep_cases (fpsStep s f.currentTime) f.currentTimePoint with ⟨_, b, _⟩ | ⟨_, b⟩
    · rw [f4, h2] at b
      omega
    · exact b
  simp only [processFrame, hcd]
  split_ifs with hp
  · obtain ⟨d0, d⟩ := detectionPass_capture (fpsStep s f.currentTime) f
    rcases d with ⟨d1, d2, d3, d4⟩ | ⟨r, d1, _⟩
    · simp only [List.nil_append]
      exact ⟨⟨by rw [d2, f2]; exact h1, by rw [d3, f4]; exact h2, by rw [d4, f5]; exact h3⟩, d0, d1⟩
    · rw [f2, h1] at d1
      exact absurd d1 (by simp)
  · exact ⟨⟨by rw [f2]; exact h1, by rw [f4]; exact h2, by rw [f5]; exact h3⟩, rfl, rfl⟩

theorem runFrames_held (mid : List Frame) (c : Int) (p : Bool) :
    ∀ s : TrackerState, Held s c p →
      (∀ m ∈ mid, secondsBetween m.currentTimePoint c < COOLDOWN_SECONDS) →
      Held (runFrames s mid).1 c p ∧ completions (runFrames s mid).2 = 0 ∧
        imwriteAttempts (runFrames s mid).2 = 0 := by
  induction mid with
  | nil => intro s h _; exact ⟨h, rfl, rfl⟩
  | cons m ms ih =>
    intro s h hm
    obtain ⟨a1, a2, a3⟩ := processFrame_held s m c p h (hm m (List.mem_cons_self _ _))
    obtain ⟨b1, b2, b3⟩ := ih _ a1 (fun x hx => hm x (List.mem_cons_of_mem _ hx))
    simp only [runFrames, completions_append, imwriteAttempts_append]
    exact ⟨b1, by omega, by omega⟩

theorem processFrame_pictureInCooldown (s : TrackerState) (f : Frame)
    (h : PictureInCooldown s) :
    PictureInCooldown (processFrame s f).1 ∧
      ∀ ok, Effect.imwrite ok ∈ (processFrame s f).2 →
        Held (processFrame s f).1 f.currentTimePoint ok := by
  obtain ⟨_, f2, _, f4, f5⟩ := fpsStep_fields s f.currentTime
  have h0 : PictureInCooldown (fpsStep s f.currentTime) := by
    unfold PictureInCooldown at h ⊢
    rw [f2, f5]
    exact h
  have h1 : PictureInCooldown (cooldownStep (fpsStep s f.currentTime) f.currentTimePoint).1 ∧
      imwriteAttempts (cooldownStep (fpsStep s f.currentTime) f.currentTimePoint).2 = 0 := by
    refine ⟨?_, (cooldownStep_fields _ _).2.2.2.2⟩
    rcases cooldownStep_cases (fpsStep s f.currentTime) f.currentTimePoint with
      ⟨_, _, _, b, _⟩ | ⟨_, b⟩
    · intro hp
      rw [b] at hp
      exact absurd hp (by simp)
    · rw [b]
      exact h0
  have hm := (imwriteAttempts_eq_zero_iff _).1 h1.2
  simp only [processFrame]
  split_ifs with hp
  · obtain ⟨_, d⟩ := detectionPass_capture
      (cooldownStep (fpsStep s f.currentTime) f.currentTimePoint).1 f
    simp only [List.mem_append]
    rcases d with ⟨d1, d2, d3, d4⟩ | ⟨r, d1, d2, d3, d4⟩
    · refine ⟨?_, ?_⟩
      · unfold PictureInCooldown
        rw [d2, d4]
        exact h1.1
      · rintro ok (hk | hk)
        · exact absurd hk (hm ok)
        · exact absurd hk ((imwriteAttempts_eq_zero_iff _).1 d1 ok)
    · have hpt : (cooldownStep (fpsStep s f.currentTime) f.currentTimePoint).1.pictureTaken
          = false := by
        by_contra hne
        have := h1.1 (by simpa using hne)
        rw [this] at d1
        exact absurd d1 (by simp)
      rw [hpt, Bool.or_false] at d3
      refine ⟨fun _ => d3.1, ?_⟩
      rintro ok (hk | hk)
      · exact absurd hk (hm ok)
      · rw [(d4 ok).1 hk]
        exact d3
  · exact ⟨h1.1, fun ok hk => absurd hk (hm ok)⟩

theorem runFrames_pictureInCooldown (fs : List Frame) :
    ∀ s : TrackerState, PictureInCooldown s → PictureInCooldown (runFrames s fs).1 := by
  induction fs with
  | nil => intro s h; exact h
  | cons f fs ih => intro s h; exact ih _ (processFrame_pictureInCooldown s f h).1

theorem detectionPass_quiet (s : TrackerState) (f : Frame) (h : s.pictureTaken = false) :
    completions (detectionPass s f).2 = 0 ∧
      (imwriteAttempts (detectionPass s f).2 = 0 → (detectionPass s f).1.pictureTaken = false) := by
  obtain ⟨d0, d⟩ := detectionPass_capture s f
  refine ⟨d0, fun hz => ?_⟩
  rcases d with ⟨_, _, _, d4⟩ | ⟨r, _, d2, _⟩
  · rw [d4, h]
  · omega

theorem processFrame_quiet (s : TrackerState) (f : Frame) (h : s.pictureTaken = false) :
    completions (processFrame s f).2 = 0 ∧
      (imwriteAttempts (processFrame s f).2 = 0 → (processFrame s f).1.pictureTaken = false) := by
  obtain ⟨_, _, _, _, f5⟩ := fpsStep_fields s f.currentTime
  have h1 : (cooldownStep (fpsStep s f.currentTime) f.currentTimePoint).1.pictureTaken = false ∧
      (cooldownStep (fpsStep s f.currentTime) f.currentTimePoint).2 = [] := by
    rcases cooldownStep_cases (fpsStep s f.currentTime) f.currentTimePoint with
      ⟨_, _, _, b, c⟩ | ⟨_, b⟩
    · rw [f5, h] at c
      exact ⟨b, by simpa using c⟩
    · rw [b]
      exact ⟨by rw [f5]; exact h, rfl⟩
  simp only [processFrame]
  split_ifs with hp
  · obtain ⟨q1, q2⟩ := detectionPass_quiet _ f h1.1
    simp only [h1.2, List.nil_append]
    exact ⟨q1, q2⟩
  · rw [h1.2]
    exact ⟨rfl, fun _ => h1.1⟩

theorem runFrames_quiet (fs : List Frame) :
    ∀ s : TrackerState, s.pictureTaken = false →
      completions (beforeNextCapture (runFrames s fs).2) = 0 := by
  induction fs with
  | nil => intro s _; rfl
  | cons f fs ih =>
    intro s h
    obtain ⟨q1, q2⟩ := processFrame_quiet s f h
    simp only [runFrames]
    by_cases hz : imwriteAttempts (processFrame s f).2 = 0
    · rw [beforeNextCapture_append_quiet _ _ hz, completions_append, q1, ih _ (q2 hz)]
    · rw [beforeNextCapture_append_capture _ _ (by omega)]
      have := completions_beforeNextCapture_le (processFrame s f).2
      omega

theorem initialState_pictureInCooldown (lastFpsTime : Int) :
    PictureInCooldown (initialState lastFpsTime) := by
  intro h
  simp [initialState] at h

theorem frameHead_expiry (s : TrackerState) (g : Frame) (c : Int) (p : Bool) (h : Held s c p)
    (hg : COOLDOWN_SECONDS ≤ secondsBetween g.currentTimePoint c) :
    (frameHead s g).2 = (if p then [analysisComplete] else []) ∧
      (frameHead s g).1.isInCooldown = false ∧ (frameHead s g).1.pictureTaken = false := by
  obtain ⟨_, f2, _, f4, f5⟩ := fpsStep_fields s g.currentTime
  obtain ⟨h1, h2, h3⟩ := h
  unfold frameHead
  rcases cooldownStep_cases (fpsStep s g.currentTime) g.currentTimePoint with
    ⟨_, _, a, b, c⟩ | ⟨b, _⟩
  · rw [f5, h3] at c
    exact ⟨c, a, b⟩
  · rw [f2, f4, h1, h2] at b
    rcases b with b | b
    · exact absurd b (by simp)
    · omega

theorem frame_after_head_quiet (s : TrackerState) (g : Frame) (rest : List Frame)
    (hp : (frameHead s g).1.pictureTaken = false) :
    completions (beforeNextCapture ((processFrame s g).2 ++ (runFrames (processFrame s g).1 rest).2))
      = completions (frameHead s g).2 := by
  have hz : imwriteAttempts (frameHead s g).2 = 0 := (cooldownStep_fields _ _).2.2.2.2
  have hdef : processFrame s g =
      if isDetectionPass (frameHead s g).1 then
        ((detectionPass (frameHead s g).1 g).1, (frameHead s g).2 ++ (detectionPass (frameHead s g).1 g).2)
      else frameHead s g := rfl
  rw [hdef]
  split_ifs with hd
  · obtain ⟨q1, q2⟩ := detectionPass_quiet _ g hp
    simp only [List.append_assoc]
    rw [beforeNextCapture_append_quiet _ _ hz, completions_append]
    by_cases hz2 : imwriteAttempts (detectionPass (frameHead s g).1 g).2 = 0
    · rw [beforeNextCapture_append_quiet _ _ hz2, completions_append, q1,
        runFrames_quiet rest _ (q2 hz2)]
      rfl
    · rw [beforeNextCapture_append_capture _ _ (by omega)]
      have := completions_beforeNextCapture_le (detectionPass (frameHead s g).1 g).2
      omega
  · rw [beforeNextCapture_append_quiet _ _ hz, completions_append, runFrames_quiet rest _ hp]
    rfl

/-- Claim C8: in a run from the initial state, let a frame `f` call `imwrite` with
result `ok`, let the frames `mid` that follow be less than 5 seconds
(`COOLDOWN_SECONDS`) after `f` and let `g`, the next frame, be at least 5
seconds after `f`.  Then the frames `mid` emit no "Analysis complete" and call
`imwrite` not at all; the head of frame `g` emits "Analysis complete" (severity
0) exactly when `ok` is true, and clears `isInCooldown` and `pictureTaken`; and
in the whole trace after `f`, up to the next call of `imwrite`, "Analysis
complete" is emitted once when `ok` is true and never when `ok` is false. -/
theorem analysis_complete_once (lastFpsTime : Int) (pre : List Frame) (f : Frame) (ok : Bool)
    (mid : List Frame) (g : Frame) (rest : List Frame)
    (hcap : Effect.imwrite ok ∈ (processFrame (runFrames (initialState lastFpsTime) pre).1 f).2)
    (hmid : ∀ m ∈ mid, m.currentTimePoint < f.currentTimePoint + 5000000000)
    (hg : f.currentTimePoint + 5000000000 ≤ g.currentTimePoint) :
    completions (runFrames (processFrame (runFrames (initialState lastFpsTime) pre).1 f).1 mid).2
        = 0 ∧
      imwriteAttempts
        (runFrames (processFrame (runFrames (initialState lastFpsTime) pre).1 f).1 mid).2 = 0 ∧
      (frameHead (runFrames (processFrame (runFrames (initialState lastFpsTime) pre).1 f).1 mid).1
        g).2 = (if ok then [analysisComplete] else []) ∧
      (frameHead (runFrames (processFrame (runFrames (initialState lastFpsTime) pre).1 f).1 mid).1
        g).1.isInCooldown = false ∧
      (frameHead (runFrames (processFrame (runFrames (initialState lastFpsTime) pre).1 f).1 mid).1
        g).1.pictureTaken = false ∧
      completions (beforeNextCapture
        (runFrames (processFrame (runFrames (initialState lastFpsTime) pre).1 f).1
          (mid ++ g :: rest)).2) = (if ok then 1 else 0) := by
  have hinv := runFrames_pictureInCooldown pre _ (initialState_pictureInCooldown lastFpsTime)
  have hheld := (processFrame_pictureInCooldown _ f hinv).2 ok hcap
  have hmid2 : ∀ m ∈ mid, secondsBetween m.currentTimePoint f.currentTimePoint < COOLDOWN_SECONDS := by
    intro m hm
    have h1 := hmid m hm
    by_contra hne
    have := (secondsBetween_ge_iff m.currentTimePoint f.currentTimePoint 5 (by norm_num)).1
      (by unfold COOLDOWN_SECONDS at hne; omega)
    omega
  have hg2 : COOLDOWN_SECONDS ≤ secondsBetween g.currentTimePoint f.currentTimePoint :=
    (secondsBetween_ge_iff g.currentTimePoint f.currentTimePoint 5 (by norm_num)).2 (by omega)
  obtain ⟨m1, m2, m3⟩ := runFrames_held mid f.currentTimePoint ok _ hheld hmid2
  obtain ⟨e1, e2, e3⟩ := frameHead_expiry _ g f.currentTimePoint ok m1 hg2
  refine ⟨m2, m3, e1, e2, e3, ?_⟩
  rw [runFrames_append]
  simp only [runFrames]
  rw [beforeNextCapture_append_quiet _ _ m3, completions_append, m2,
    frame_after_head_quiet _ g rest e3, e1]
  cases ok <;> simp [completions, analysisComplete]

/-- Witness for C8: the capture at 1.0 s succeeds, the frames at 2.0 s and 4.6 s
fall in the cooldown and the frame at 6.1 s is the first one 5 seconds after
the capture. -/
theorem analysis_complete_once_witness :
    completions (runFrames (processFrame (runFrames (initialState 0) []).1
        (frameAt 1000 [faceA])).1 [frameAt 2000 [], frameAt 4600 [faceA]]).2 = 0 ∧
      imwriteAttempts (runFrames (processFrame (runFrames (initialState 0) []).1
        (frameAt 1000 [faceA])).1 [frameAt 2000 [], frameAt 4600 [faceA]]).2 = 0 ∧
      (frameHead (runFrames (processFrame (runFrames (initialState 0) []).1
        (frameAt 1000 [faceA])).1 [frameAt 2000 [], frameAt 4600 [faceA]]).1
        (frameAt 6100 [faceA])).2 = (if true then [analysisComplete] else []) ∧
      (frameHead (runFrames (processFrame (runFrames (initialState 0) []).1
        (frameAt 1000 [faceA])).1 [frameAt 2000 [], frameAt 4600 [faceA]]).1
        (frameAt 6100 [faceA])).1.isInCooldown = false ∧
      (frameHead (runFrames (processFrame (runFrames (initialState 0) []).1
        (frameAt 1000 [faceA])).1 [frameAt 2000 [], frameAt 4600 [faceA]]).1
        (frameAt 6100 [faceA])).1.pictureTaken = false ∧
      completions (beforeNextCapture
        (runFrames (processFrame (runFrames (initialState 0) []).1 (frameAt 1000 [faceA])).1
          ([frameAt 2000 [], frameAt 4600 [faceA]] ++ frameAt 6100 [faceA] :: [])).2) =
        (if true then 1 else 0) :=
  analysis_complete_once 0 [] (frameAt 1000 [faceA]) true [frameAt 2000 [], frameAt 4600 [faceA]]
    (frameAt 6100 [faceA]) [] (by decide) (by decide) (by decide)

/-! ## CPU usage -/

theorem drawLogLoop_length (pictureTaken : Bool) (startX startY : Int) (logs : List KernelLog) :
    ∀ i : Nat, (drawLogLoop pictureTaken startX startY i logs).length = logs.length := by
  induction logs with
  | nil => intro i; rfl
  | cons log logs ih => intro i; simp [drawLogLoop, ih]

/-- Every entry of the queue is drawn, whatever the length of the queue. -/
theorem drawKernelLogs_draws_all (cols rows : Int) (pictureTaken : Bool)
    (kernelLogs : List KernelLog) :
    (drawKernelLogs cols rows pictureTaken kernelLogs).rows.length = kernelLogs.length ∧
      (drawKernelLogs cols rows pictureTaken kernelLogs).kernelLogs = kernelLogs := by
  simp [drawKernelLogs, drawLogLoop_length]

set_option maxRecDepth 1000000 in
/-- Claim C10, evaluated on a queue of nine entries and a frame of 640 by 480:
`drawKernelLogs` draws nine entries, not the eight most recent ones; row 0
shows "entry 0", the oldest entry, and "entry 8", the most recent one, is put on
row 8, at y = 490, below the frame.  The queue is left unchanged. -/
theorem drawKernelLogs_nine_entries :
    (drawKernelLogs 640 480 false (numberedLogs 9)).rows.length = 9 ∧
      (drawKernelLogs 640 480 false (numberedLogs 9)).rows.map
          (fun p => (rowOf 480 p, p.text, p.y)) =
        [(0, "[12:00:00.000] entry 0", 346), (1, "[12:00:00.000] entry 1", 364),
          (2, "[12:00:00.000] entry 2", 382), (3, "[12:00:00.000] entry 3", 400),
          (4, "[12:00:00.000] entry 4", 418), (5, "[12:00:00.000] entry 5", 436),
          (6, "[12:00:00.000] entry 6", 454), (7, "[12:00:00.000] entry 7", 472),
          (8, "[12:00:00.000] entry 8", 490)] ∧
      ((numberedLogs 9).drop (9 - MAX_LOG_ENTRIES)).map (fun e => e.message) =
        ["entry 1", "entry 2", "entry 3", "entry 4", "entry 5", "entry 6", "entry 7",
          "entry 8"] ∧
      (drawKernelLogs 640 480 false (numberedLogs 9)).kernelLogs = numberedLogs 9 := by
  decide

/-! ## Failed persistence -/

/-- Claim C11, as amended: in every state in which the capture gate is open (no
cooldown, at most 1 whole second since the onset), a capture whose `imwrite`
fails makes exactly the calls `imwrite` and
`addKernelLog("Failed to capture image", 3)`; it sets `isInCooldown`, sets
`lastCaptureTimePoint` to the current frame time and changes nothing else in the
state, so `pictureTaken` is unchanged; it does not swap the queue for an empty
one.  Whatever calls other threads make in between, the queue after the step is
the result of that one `addKernelLog` call on the queue it finds: the entries
that survive are the queue found without its `j` oldest entries, and every
entry is kept (`j = 0`) when the first memory reading of the call is unavailable
or not above the ceiling. -/
theorem failed_capture_starts_cooldown (s : TrackerState) (t : Int) (envs : Nat → LogCallEnv)
    (others : Nat → List OtherCall) (k : Nat) (q : List KernelLog)
    (hcool : s.isInCooldown = false)
    (hwin : secondsBetween t s.faceDetectionStartTime ≤ DETECTION_WINDOW_SECONDS) :
    (captureGate s t false).2 =
        [.imwrite false, .addKernelLog "Failed to capture image" 3] ∧
      (captureGate s t false).1 = { s with lastCaptureTimePoint := t, isInCooldown := true } ∧
      (captureGate s t false).1.isInCooldown = true ∧
      (captureGate s t false).1.lastCaptureTimePoint = t ∧
      (captureGate s t false).1.pictureTaken = s.pictureTaken ∧
      Effect.clearKernelLogs ∉ (captureGate s t false).2 ∧
      applyLogOps q (interleavedOps envs others k (captureGate s t false).2) =
        addKernelLog (envs (k + 1)) "Failed to capture image" 3
          (applyLogOps q (otherOps (others k) ++ otherOps (others (k + 1)))) ∧
      (∃ j, j ≤ (applyLogOps q (otherOps (others k) ++ otherOps (others (k + 1)))).length ∧
        (applyLogOps q (interleavedOps envs others k (captureGate s t false).2) =
            (applyLogOps q (otherOps (others k) ++ otherOps (others (k + 1)))).drop j ++
              [⟨(envs (k + 1)).timestamp, "Failed to capture image", 3⟩] ∨
          applyLogOps q (interleavedOps envs others k (captureGate s t false).2) =
            (applyLogOps q (otherOps (others k) ++ otherOps (others (k + 1)))).drop j)) ∧
      (firstReadingAbove (envs (k + 1)) = false →
        applyLogOps q (interleavedOps envs others k (captureGate s t false).2) =
          if (applyLogOps q (otherOps (others k) ++ otherOps (others (k + 1)))).length <
              MAX_QUEUE_SIZE then
            applyLogOps q (otherOps (others k) ++ otherOps (others (k + 1))) ++
              [⟨(envs (k + 1)).timestamp, "Failed to capture image", 3⟩]
          else applyLogOps q (otherOps (others k) ++ otherOps (others (k + 1)))) := by
  have hgate : captureGate s t false = captureStep s t false := by
    unfold captureGate
    rw [if_pos ⟨hcool, hwin⟩]
  have hqueue : applyLogOps q (interleavedOps envs others k (captureGate s t false).2) =
      addKernelLog (envs (k + 1)) "Failed to capture image" 3
        (applyLogOps q (otherOps (others k) ++ otherOps (others (k + 1)))) := by
    rw [hgate]
    have htrace : (captureStep s t false).2 =
        [Effect.imwrite false, Effect.addKernelLog "Failed to capture image" 3] := rfl
    rw [htrace]
    simp only [interleavedOps, effectOps, List.append_nil, applyLogOps_append, applyLogOps_add,
      applyLogOps_nil]
  refine ⟨by rw [hgate]; rfl, by rw [hgate]; rfl, by rw [hgate]; rfl, by rw [hgate]; rfl,
    by rw [hgate]; rfl, by rw [hgate]; simp [captureStep], hqueue, ?_, ?_⟩
  · rw [hqueue]
    obtain ⟨j, hj, hdrop⟩ := memoryCheck_drop (envs (k + 1)).rusage
      (applyLogOps q (otherOps (others k) ++ otherOps (others (k + 1))))
    refine ⟨j, hj, ?_⟩
    unfold addKernelLog
    rw [hdrop]
    split_ifs
    · exact Or.inl rfl
    · exact Or.inr rfl
  · intro hlow
    rw [hqueue]
    unfold addKernelLog
    rw [memoryCheck_not_above _ _ hlow]

/-- Witness for C11, as amended: a failed capture at the onset of an episode at
126 ms, on a queue of three entries with a memory reading of 100 MB and no call
of another thread. -/
theorem failed_capture_starts_cooldown_witness :
    (captureGate (onsetStep (initialState 0) 126000000 faceA).1 126000000 false).2 =
        [.imwrite false, .addKernelLog "Failed to capture image" 3] ∧
      (captureGate (onsetStep (initialState 0) 126000000 faceA).1 126000000 false).1.isInCooldown
        = true ∧
      applyLogOps (numberedLogs 3) (interleavedOps (fun _ => constantEnv 100000 "12:00:01.000")
        (fun _ => []) 0
        (captureGate (onsetStep (initialState 0) 126000000 faceA).1 126000000 false).2) =
        if (applyLogOps (numberedLogs 3) (otherOps [] ++ otherOps [])).length < MAX_QUEUE_SIZE then
          applyLogOps (numberedLogs 3) (otherOps [] ++ otherOps []) ++
            [⟨"12:00:01.000", "Failed to capture image", 3⟩]
        else applyLogOps (numberedLogs 3) (otherOps [] ++ otherOps []) :=
  ⟨(failed_capture_starts_cooldown (onsetStep (initialState 0) 126000000 faceA).1 126000000
      (fun _ => constantEnv 100000 "12:00:01.000") (fun _ => []) 0 (numberedLogs 3) rfl
      (by decide)).1,
    (failed_capture_starts_cooldown (onsetStep (initialState 0) 126000000 faceA).1 126000000
      (fun _ => constantEnv 100000 "12:00:01.000") (fun _ => []) 0 (numberedLogs 3) rfl
      (by decide)).2.2.1,
    (failed_capture_starts_cooldown (onsetStep (initialState 0) 126000000 faceA).1 126000000
      (fun _ => constantEnv 100000 "12:00:01.000") (fun _ => []) 0 (numberedLogs 3) rfl
      (by decide)).2.2.2.2.2.2.2.2 (by decide)⟩

/-- Counterexample to C11 as stated: with a memory reading of 400 MB at every
`getrusage` call and no call of another thread, a failed capture on a queue of
three entries leaves only "Failed to capture image" in the queue. -/
theorem failed_capture_under_memory_pressure :
    (numberedLogs 3).length = 3 ∧
      applyLogOps (numberedLogs 3) (interleavedOps (fun _ => constantEnv 400000 "12:00:01.000")
        (fun _ => []) 0
        (captureGate (onsetStep (initialState 0) 126000000 faceA).1 126000000 false).2) =
        [⟨"12:00:01.000", "Failed to capture image", 3⟩] := by
  decide

/-! ## The shared statistics -/

theorem sharedInv_initial (P : Metrics → Prop) (h0 : P initialMetrics) :
    SharedInv P initialConfig := by
  refine ⟨by simp [initialConfig], by simp [initialConfig], by simp [initialConfig],
    by simp [initialConfig], ⟨initialMetrics, h0, ?_⟩, ?_, ?_, ?_, ?_, ?_⟩ <;>
    simp [initialConfig, initialStats, initialMetrics, MonitorPc.written, FramePc.readsDone]

theorem framePc_outside_of_holder (c : SharedConfig) (t : ThreadId) (ht : t ≠ .frame)
    (h : c.holder = some .frame ↔ c.framePc ≠ .outside) (hh : c.holder = none ∨ c.holder = some t) :
    c.framePc = .outside := by
  by_contra hne
  have := h.2 hne
  rcases hh with hh | hh
  · rw [hh] at this; exact absurd this (by simp)
  · rw [hh] at this; exact ht (by simpa using this)

theorem monitorPc_outside_of_holder (c : SharedConfig) (t : ThreadId) (ht : t ≠ .monitor)
    (h : c.holder = some .monitor ↔ c.monitorPc ≠ .outside)
    (hh : c.holder = none ∨ c.holder = some t) :
    c.monitorPc = .outside := by
  by_contra hne
  have := h.2 hne
  rcases hh with hh | hh
  · rw [hh] at this; exact absurd this (by simp)
  · rw [hh] at this; exact ht (by simpa using this)

theorem networkPc_outside_of_holder (c : SharedConfig) (t : ThreadId) (ht : t ≠ .network)
    (h : c.holder = some .network ↔ c.networkPc ≠ .outside)
    (hh : c.holder = none ∨ c.holder = some t) :
    c.networkPc = .outside := by
  by_contra hne
  have := h.2 hne
  rcases hh with hh | hh
  · rw [hh] at this; exact absurd this (by simp)
  · rw [hh] at this; exact ht (by simpa using this)

theorem monitorStep_inv (P : Metrics → Prop) (c : SharedConfig) (m : Metrics)
    (hm : c.monitorPc = .outside → c.holder = none → P m) (h : SharedInv P c) :
    SharedInv P (monitorStep c m) := by
  obtain ⟨l1, l2, l3, hl, ⟨old, ho, s1, s2, s3, s4, s5⟩, f1, f2, f3, f4, hr⟩ := h
  cases hpc : c.monitorPc with
  | outside =>
    by_cases hh : c.holder = none
    · have hf := framePc_outside_of_holder c .monitor (by decide) l2 (Or.inl hh)
      have hn := networkPc_outside_of_holder c .monitor (by decide) l3 (Or.inl hh)
      simp only [monitorStep, hpc, hh, if_true]
      simp only [hpc, MonitorPc.written] at s1 s2 s3 s4 s5
      refine ⟨by simp, by simp [hf], by simp [hn], fun _ => hm hpc hh,
        ⟨old, ho, ?_, ?_, ?_, ?_, ?_⟩, ?_, ?_, ?_, ?_, hr⟩ <;>
        simp_all [MonitorPc.written, FramePc.readsDone]
    · simp only [monitorStep, hpc, hh, if_false]
      exact ⟨l1, l2, l3, hl, ⟨old, ho, s1, s2, s3, s4, s5⟩, f1, f2, f3, f4, hr⟩
  | atCpuUsage =>
    have hh : c.holder = some .monitor := l1.2 (by simp [hpc])
    have hf := framePc_outside_of_holder c .monitor (by decide) l2 (Or.inr hh)
    have hn := networkPc_outside_of_holder c .monitor (by decide) l3 (Or.inr hh)
    have hloc := hl (by simp [hpc])
    simp only [monitorStep, hpc]
    simp only [hpc, MonitorPc.written] at s1 s2 s3 s4 s5
    refine ⟨by simp [hh], by simp [hf, hh], by simp [hn, hh], fun _ => hloc,
      ⟨old, ho, ?_, ?_, ?_, ?_, ?_⟩, ?_, ?_, ?_, ?_, hr⟩ <;>
      simp_all [MonitorPc.written, FramePc.readsDone]
  | atRamUsage =>
    have hh : c.holder = some .monitor := l1.2 (by simp [hpc])
    have hf := framePc_outside_of_holder c .monitor (by decide) l2 (Or.inr hh)
    have hn := networkPc_outside_of_holder c .monitor (by decide) l3 (Or.inr hh)
    have hloc := hl (by simp [hpc])
    simp only [monitorStep, hpc]
    simp only [hpc, MonitorPc.written] at s1 s2 s3 s4 s5
    refine ⟨by simp [hh], by simp [hf, hh], by simp [hn, hh], fun _ => hloc,
      ⟨old, ho, ?_, ?_, ?_, ?_, ?_⟩, ?_, ?_, ?_, ?_, hr⟩ <;>
      simp_all [MonitorPc.written, FramePc.readsDone]
  | atStorageUsage =>
    have hh : c.holder = some .monitor := l1.2 (by simp [hpc])
    have hf := framePc_outside_of_holder c .monitor (by decide) l2 (Or.inr hh)
    have hn := networkPc_outside_of_holder c .monitor (by decide) l3 (Or.inr hh)
    have hloc := hl (by simp [hpc])
    simp only [monitorStep, hpc]
    simp only [hpc, MonitorPc.written] at s1 s2 s3 s4 s5
    refine ⟨by simp [hh], by simp [hf, hh], by simp [hn, hh], fun _ => hloc,
      ⟨old, ho, ?_, ?_, ?_, ?_, ?_⟩, ?_, ?_, ?_, ?_, hr⟩ <;>
      simp_all [MonitorPc.written, FramePc.readsDone]
  | atBatteryStatus =>
    have hh : c.holder = some .monitor := l1.2 (by simp [hpc])
    have hf := framePc_outside_of_holder c .monitor (by decide) l2 (Or.inr hh)
    have hn := networkPc_outside_of_holder c .monitor (by decide) l3 (Or.inr hh)
    have hloc := hl (by simp [hpc])
    simp only [monitorStep, hpc]
    simp only [hpc, MonitorPc.written] at s1 s2 s3 s4 s5
    refine ⟨by simp [hh], by simp [hf, hh], by simp [hn, hh], fun _ => hloc,
      ⟨old, ho, ?_, ?_, ?_, ?_, ?_⟩, ?_, ?_, ?_, ?_, hr⟩ <;>
      simp_all [MonitorPc.written, FramePc.readsDone]
  | atDateTime =>
    have hh : c.holder = some .monitor := l1.2 (by simp [hpc])
    have hf := framePc_outside_of_holder c .monitor (by decide) l2 (Or.inr hh)
    have hn := networkPc_outside_of_holder c .monitor (by decide) l3 (Or.inr hh)
    have hloc := hl (by simp [hpc])
    simp only [monitorStep, hpc]
    simp only [hpc, MonitorPc.written] at s1 s2 s3 s4 s5
    refine ⟨by simp [hh], by simp [hf, hh], by simp [hn, hh], fun _ => hloc,
      ⟨old, ho, ?_, ?_, ?_, ?_, ?_⟩, ?_, ?_, ?_, ?_, hr⟩ <;>
      simp_all [MonitorPc.written, FramePc.readsDone]
  | atRelease =>
    have hh : c.holder = some .monitor := l1.2 (by simp [hpc])
    have hf := framePc_outside_of_holder c .monitor (by decide) l2 (Or.inr hh)
    have hn := networkPc_outside_of_holder c .monitor (by decide) l3 (Or.inr hh)
    have hloc := hl (by simp [hpc])
    simp only [monitorStep, hpc]
    simp only [hpc, MonitorPc.written] at s1 s2 s3 s4 s5
    refine ⟨by simp, by simp [hf], by simp [hn], by simp,
      ⟨c.monitorLocal, hloc, ?_, ?_, ?_, ?_, ?_⟩, ?_, ?_, ?_, ?_, hr⟩ <;>
      simp_all [MonitorPc.written, FramePc.readsDone]

theorem frameStep_inv (P : Metrics → Prop) (c : SharedConfig) (fpsSection : Bool)
    (fps : ℚ) (h : SharedInv P c) :
    SharedInv P (frameStep c fpsSection fps) := by
  obtain ⟨l1, l2, l3, hl, ⟨old, ho, s1, s2, s3, s4, s5⟩, f1, f2, f3, f4, hr⟩ := h
  by_cases hout : c.framePc = .outside
  · by_cases hh : c.holder = none
    · have hmo := monitorPc_outside_of_holder c .frame (by decide) l1 (Or.inl hh)
      have hn := networkPc_outside_of_holder c .frame (by decide) l3 (Or.inl hh)
      simp only [frameStep, hout, hh, if_true]
      refine ⟨by simp [hmo], by cases fpsSection <;> simp, by simp [hn], by simp [hmo],
        ⟨old, ho, s1, s2, s3, s4, s5⟩, ?_, ?_, ?_, ?_, hr⟩ <;>
        cases fpsSection <;> simp [FramePc.readsDone]
    · simp only [frameStep, hout, hh, if_false]
      exact ⟨l1, l2, l3, hl, ⟨old, ho, s1, s2, s3, s4, s5⟩, f1, f2, f3, f4, hr⟩
  · have hh : c.holder = some .frame := l2.2 hout
    have hmo := monitorPc_outside_of_holder c .frame (by decide) l1 (Or.inr hh)
    have hn := networkPc_outside_of_holder c .frame (by decide) l3 (Or.inr hh)
    simp only [hmo, MonitorPc.written] at s1 s2 s3 s4 s5
    cases hpc : c.framePc with
    | outside => exact absurd hpc hout
    | atReadRelease =>
      simp only [hpc, FramePc.readsDone] at f1 f2 f3 f4
      simp only [frameStep, hpc]
      refine ⟨by simp [hmo], by simp, by simp [hn], by simp [hmo],
        ⟨old, ho, ?_, ?_, ?_, ?_, ?_⟩, ?_, ?_, ?_, ?_, ?_⟩
      · simpa [hmo, MonitorPc.written] using s1
      · simpa [hmo, MonitorPc.written] using s2
      · simpa [hmo, MonitorPc.written] using s3
      · simpa [hmo, MonitorPc.written] using s4
      · simpa [hmo, MonitorPc.written] using s5
      · simp [FramePc.readsDone]
      · simp [FramePc.readsDone]
      · simp [FramePc.readsDone]
      · simp [FramePc.readsDone]
      · intro r hrm
        rcases List.mem_append.1 hrm with hrm | hrm
        · exact hr r hrm
        · have hrl : r = c.frameLocal := by simpa using hrm
          refine ⟨old, ho, ?_, ?_, ?_, ?_⟩
          · rw [hrl, f1 (by norm_num)]; simpa using s1
          · rw [hrl, f2 (by norm_num)]; simpa using s2
          · rw [hrl, f3 (by norm_num)]; simpa using s3
          · rw [hrl, f4 (by norm_num)]; simpa using s5
    | atFpsWrite =>
      simp only [hpc, FramePc.readsDone] at f1 f2 f3 f4
      simp only [frameStep, hpc]
      refine ⟨by simp [hmo, hh], by simp [hh], by simp [hn, hh], by simp [hmo],
        ⟨old, ho, ?_, ?_, ?_, ?_, ?_⟩, ?_, ?_, ?_, ?_, hr⟩ <;>
        simp_all [MonitorPc.written, FramePc.readsDone]
    | atFpsRelease =>
      simp only [hpc, FramePc.readsDone] at f1 f2 f3 f4
      simp only [frameStep, hpc]
      refine ⟨by simp [hmo], by simp, by simp [hn], by simp [hmo],
        ⟨old, ho, ?_, ?_, ?_, ?_, ?_⟩, ?_, ?_, ?_, ?_, hr⟩ <;>
        simp_all [MonitorPc.written, FramePc.readsDone]
    | atReadCpuUsage =>
      simp only [hpc, FramePc.readsDone] at f1 f2 f3 f4
      simp only [frameStep, hpc]
      refine ⟨by simp [hmo, hh], by simp [hh], by simp [hn, hh], by simp [hmo],
        ⟨old, ho, ?_, ?_, ?_, ?_, ?_⟩, ?_, ?_, ?_, ?_, hr⟩ <;>
        simp_all [MonitorPc.written, FramePc.readsDone]
    | atReadRamUsage =>
      simp only [hpc, FramePc.readsDone] at f1 f2 f3 f4
      simp only [frameStep, hpc]
      refine ⟨by simp [hmo, hh], by simp [hh], by simp [hn, hh], by simp [hmo],
        ⟨old, ho, ?_, ?_, ?_, ?_, ?_⟩, ?_, ?_, ?_, ?_, hr⟩ <;>
        simp_all [MonitorPc.written, FramePc.readsDone]
    | atReadStorageUsage =>
      simp only [hpc, FramePc.readsDone] at f1 f2 f3 f4
      simp only [frameStep, hpc]
      refine ⟨by simp [hmo, hh], by simp [hh], by simp [hn, hh], by simp [hmo],
        ⟨old, ho, ?_, ?_, ?_, ?_, ?_⟩, ?_, ?_, ?_, ?_, hr⟩ <;>
        simp_all [MonitorPc.written, FramePc.readsDone]
    | atReadFps =>
      simp only [hpc, FramePc.readsDone] at f1 f2 f3 f4
      simp only [frameStep, hpc]
      refine ⟨by simp [hmo, hh], by simp [hh], by simp [hn, hh], by simp [hmo],
        ⟨old, ho, ?_, ?_, ?_, ?_, ?_⟩, ?_, ?_, ?_, ?_, hr⟩ <;>
        simp_all [MonitorPc.written, FramePc.readsDone]
    | atReadNetStatus =>
      simp only [hpc, FramePc.readsDone] at f1 f2 f3 f4
      simp only [frameStep, hpc]
      refine ⟨by simp [hmo, hh], by simp [hh], by simp [hn, hh], by simp [hmo],
        ⟨old, ho, ?_, ?_, ?_, ?_, ?_⟩, ?_, ?_, ?_, ?_, hr⟩ <;>
        simp_all [MonitorPc.written, FramePc.readsDone]
    | atReadDateTime =>
      simp only [hpc, FramePc.readsDone] at f1 f2 f3 f4
      simp only [frameStep, hpc]
      refine ⟨by simp [hmo, hh], by simp [hh], by simp [hn, hh], by simp [hmo],
        ⟨old, ho, ?_, ?_, ?_, ?_, ?_⟩, ?_, ?_, ?_, ?_, hr⟩ <;>
        simp_all [MonitorPc.written, FramePc.readsDone]

theorem networkStep_inv (P : Metrics → Prop) (c : SharedConfig) (status : String)
    (h : SharedInv P c) :
    SharedInv P (networkStep c status) := by
  obtain ⟨l1, l2, l3, hl, ⟨old, ho, s1, s2, s3, s4, s5⟩, f1, f2, f3, f4, hr⟩ := h
  by_cases hout : c.networkPc = .outside
  · by_cases hh : c.holder = none
    · have hmo := monitorPc_outside_of_holder c .network (by decide) l1 (Or.inl hh)
      have hf := framePc_outside_of_holder c .network (by decide) l2 (Or.inl hh)
      simp only [networkStep, hout, hh, if_true]
      exact ⟨by simp [hmo], by simp [hf], by simp, by simp [hmo],
        ⟨old, ho, s1, s2, s3, s4, s5⟩, f1, f2, f3, f4, hr⟩
    · simp only [networkStep, hout, hh, if_false]
      exact ⟨l1, l2, l3, hl, ⟨old, ho, s1, s2, s3, s4, s5⟩, f1, f2, f3, f4, hr⟩
  · have hh : c.holder = some .network := l3.2 hout
    have hmo := monitorPc_outside_of_holder c .network (by decide) l1 (Or.inr hh)
    have hf := framePc_outside_of_holder c .network (by decide) l2 (Or.inr hh)
    cases hpc : c.networkPc with
    | outside => exact absurd hpc hout
    | atWrite =>
      simp only [networkStep, hpc]
      exact ⟨by simp [hmo, hh], by simp [hf, hh], by simp [hh], by simp [hmo],
        ⟨old, ho, s1, s2, s3, s4, s5⟩, f1, f2, f3, f4, hr⟩
    | atRelease =>
      simp only [networkStep, hpc]
      exact ⟨by simp [hmo], by simp [hf], by simp, by simp [hmo],
        ⟨old, ho, s1, s2, s3, s4, s5⟩, f1, f2, f3, f4, hr⟩

theorem publishedFrom_cons_subset (c : SharedConfig) (a : SchedulerChoice)
    (rest : List SchedulerChoice) (m : Metrics) (h : m ∈ publishedFrom (sharedStep c a) rest) :
    m ∈ publishedFrom c (a :: rest) := by
  cases a with
  | monitor m0 =>
    unfold publishedFrom
    split_ifs
    · exact List.mem_cons_of_mem _ h
    · exact h
  | frame fpsSection fps => exact h
  | network status => exact h

theorem foldl_sharedStep_inv (P : Metrics → Prop) (steps : List SchedulerChoice) :
    ∀ c : SharedConfig, (∀ m ∈ publishedFrom c steps, P m) → SharedInv P c →
      SharedInv P (steps.foldl sharedStep c) := by
  induction steps with
  | nil => intro c _ h; exact h
  | cons a steps ih =>
    intro c hsub h
    refine ih _ (fun m hm => hsub m (publishedFrom_cons_subset c a steps m hm)) ?_
    cases a with
    | monitor m =>
      refine monitorStep_inv P c m (fun h1 h2 => hsub m ?_) h
      unfold publishedFrom
      rw [if_pos ⟨h1, h2⟩]
      exact List.mem_cons_self _ _
    | frame fpsSection fps => exact frameStep_inv P c fpsSection fps h
    | network status => exact networkStep_inv P c status h

theorem runSchedule_inv (schedule : List SchedulerChoice) :
    SharedInv (OneCycle schedule) (runSchedule schedule) :=
  foldl_sharedStep_inv (OneCycle schedule) schedule initialConfig (fun _ hm => Or.inr hm)
    (sharedInv_initial _ (Or.inl rfl))

/-- Claim C12: under every interleaving of `systemMonitor`, the loop of `main` and
`pingNetwork`, statement by statement, every overlay the loop of `main` reads
under `statsMutex` shows the `cpuUsage`, `ramUsage`, `storageUsage` and
`dateTime` of one refresh cycle (or of the initial `stats`); and whenever
`systemMonitor` does not hold the mutex, so whenever another thread reads under
it, `cpuUsage`, `ramUsage`, `storageUsage`, `batteryStatus` and `dateTime` of
`stats` are those of one refresh cycle. -/
theorem stats_read_from_one_cycle (schedule : List SchedulerChoice) :
    (∀ r ∈ (runSchedule schedule).reads, ∃ m, OneCycle schedule m ∧
        r.cpuUsage = m.cpuUsage ∧ r.ramUsage = m.ramUsage ∧
        r.storageUsage = m.storageUsage ∧ r.dateTime = m.dateTime) ∧
      ((runSchedule schedule).holder ≠ some .monitor →
        ∃ m, OneCycle schedule m ∧
          (runSchedule schedule).stats.cpuUsage = m.cpuUsage ∧
          (runSchedule schedule).stats.ramUsage = m.ramUsage ∧
          (runSchedule schedule).stats.storageUsage = m.storageUsage ∧
          (runSchedule schedule).stats.batteryStatus = m.batteryStatus ∧
          (runSchedule schedule).stats.dateTime = m.dateTime) := by
  obtain ⟨l1, _, _, _, ⟨old, ho, s1, s2, s3, s4, s5⟩, _, _, _, _, hr⟩ := runSchedule_inv schedule
  refine ⟨hr, fun hh => ⟨old, ho, ?_⟩⟩
  have hpc : (runSchedule schedule).monitorPc = .outside := by
    by_contra hne
    exact hh (l1.2 hne)
  simp only [hpc, MonitorPc.written] at s1 s2 s3 s4 s5
  exact ⟨by simpa using s1, by simpa using s2, by simpa using s3, by simpa using s4,
    by simpa using s5⟩


/-- Witness for C12: in `contendedSchedule` the second overlay, read after
`systemMonitor` was kept waiting during the first read, shows the second cycle;
at the end no thread holds the mutex. -/
theorem stats_read_from_one_cycle_witness :
    (∃ m, OneCycle contendedSchedule m ∧
        (⟨75, 41, 30, 0, "Disconnected", "2024-01-01 12:00:01"⟩ : Overlay).cpuUsage = m.cpuUsage ∧
        (⟨75, 41, 30, 0, "Disconnected", "2024-01-01 12:00:01"⟩ : Overlay).ramUsage = m.ramUsage ∧
        (⟨75, 41, 30, 0, "Disconnected", "2024-01-01 12:00:01"⟩ : Overlay).storageUsage =
          m.storageUsage ∧
        (⟨75, 41, 30, 0, "Disconnected", "2024-01-01 12:00:01"⟩ : Overlay).dateTime = m.dateTime) ∧
      (∃ m, OneCycle contendedSchedule m ∧
        (runSchedule contendedSchedule).stats.cpuUsage = m.cpuUsage ∧
        (runSchedule contendedSchedule).stats.ramUsage = m.ramUsage ∧
        (runSchedule contendedSchedule).stats.storageUsage = m.storageUsage ∧
        (runSchedule contendedSchedule).stats.batteryStatus = m.batteryStatus ∧
        (runSchedule contendedSchedule).stats.dateTime = m.dateTime) :=
  ⟨(stats_read_from_one_cycle contendedSchedule).1
      ⟨75, 41, 30, 0, "Disconnected", "2024-01-01 12:00:01"⟩ (by decide),
    (stats_read_from_one_cycle contendedSchedule).2 (by decide)⟩

end CybVision
